import Mathlib

/-!
# go-tremendous: a verification development

A shallow embedding of the client library (`client.go`, `campaigns.go`,
`orders.go`, `products.go`) and of the parts of the Go standard library it
calls (`fmt`, `strings`, `net/http`, `net/url`, `encoding/json`).

Conventions of the embedding.

* A Go `string` is a Lean `String`: a sequence of Unicode scalar values, that
  is, a Go string holding valid UTF-8 (every string the decoder produces is
  one).
* A Go `error` is represented by its message, the text `err.Error()` returns.
* A Go `(T, error)` result is an `Except String T`.
* What the network answers, which URLs `http.NewRequest` accepts, how a
  finite `float64` is printed, the wording of the decoder's errors and how
  `encoding/json` binds a value to the `Order` and `Product` records (through
  `time.Time` and `float64`) are parameters, collected in `Env`. The reading of
  JSON text and the binding to `Campaign` records are modelled in full.
* An operation returns an `Outcome`: the requests it handed to
  `http.DefaultClient.Do`, the lines it logged, and its Go result.
-/

namespace Tremendous

/-! ## Text helpers -/

/-- Substring test on texts: `part` occurs in `whole` as a contiguous run. -/
def Contains (whole part : String) : Prop := part.data <:+: whole.data

instance (whole part : String) : Decidable (Contains whole part) :=
  inferInstanceAs (Decidable (part.data <:+: whole.data))

/-- Leading-run test on texts: `whole` begins with `start`. -/
def StartsWith (whole start : String) : Prop := start.data <+: whole.data

instance (whole start : String) : Decidable (StartsWith whole start) :=
  inferInstanceAs (Decidable (start.data <+: whole.data))

/-! ## client.go -/

/-- TestflightURL is the testflight API endpoint. -/
def TestflightURL : String := "https://testflight.tremendous.com/api/v2"

/-- ProductionURL is the production API endpoint. -/
def ProductionURL : String := "https://api.tremendous.com/api/v2"

/-- The `http.Header` map from field name to values, as an association list
whose keys are pairwise distinct (`Header.Set` keeps them so). -/
abbrev Header := List (String × List String)

/-- The bytes `textproto` accepts in a header field name (RFC 7230 token
characters): letters, digits and the marks ``!#$%&'*+-.^_`|~``. -/
def validHeaderFieldByte (c : Char) : Bool :=
  c.isAlphanum || [33, 35, 36, 37, 38, 39, 42, 43, 45, 46, 94, 95, 96, 124, 126].contains c.toNat

/-- The loop of `textproto.canonicalMIMEHeaderKey`: upper-case the first
letter and every letter after a hyphen, lower-case the others. -/
def canonicalLoop : Bool → List Char → List Char
  | _, [] => []
  | upper, c :: cs =>
    let c1 := if upper && c.isLower then c.toUpper
              else if !upper && c.isUpper then c.toLower
              else c
    c1 :: canonicalLoop (c1 == '-') cs

/-- The function `textproto.CanonicalMIMEHeaderKey`: a name holding a byte that
is not a token character is returned unchanged. -/
def CanonicalMIMEHeaderKey (s : String) : String :=
  if s.data.all validHeaderFieldByte then ⟨canonicalLoop true s.data⟩ else s

/-- Replace the values of `key` in the map, or add the field when absent. -/
def Header.assign : Header → String → List String → Header
  | [], key, vs => [(key, vs)]
  | (k, old) :: rest, key, vs =>
    if k = key then (k, vs) :: rest else (k, old) :: Header.assign rest key vs

/-- The method `http.Header.Set`: the canonical form of `key` is mapped to the
single value `value`, replacing any existing values. -/
def Header.Set (h : Header) (key value : String) : Header :=
  Header.assign h (CanonicalMIMEHeaderKey key) [value]

/-- The values stored under exactly the field name `key`, if the field is present. -/
def Header.values : Header → String → Option (List String)
  | [], _ => none
  | (k, vs) :: rest, key => if k = key then some vs else Header.values rest key

/-- What a service reaches through its `client *Client` pointer: the two string
fields of the `Client` it points to (the services read nothing else). -/
structure ClientConfig where
  APIKey : String
  BaseURL : String
  deriving DecidableEq, Repr

/-- CampaignsService handles the "campaigns" resource. -/
structure CampaignsService where
  client : ClientConfig
  deriving DecidableEq, Repr

/-- OrdersService handles the "orders" resource. -/
structure OrdersService where
  client : ClientConfig
  deriving DecidableEq, Repr

/-- ProductsService handles the "products" resource. -/
structure ProductsService where
  client : ClientConfig
  deriving DecidableEq, Repr

/-- Client is the primary entry point for using the Tremendous API. -/
structure Client where
  APIKey : String
  BaseURL : String
  Campaigns : CampaignsService
  Orders : OrdersService
  Products : ProductsService
  deriving DecidableEq, Repr

/-- The arguments of `NewClient`. -/
structure ClientArgs where
  ApiKey : String
  Production : Bool
  deriving DecidableEq, Repr

/-- The configuration a pointer to `c` gives access to. -/
def Client.config (c : Client) : ClientConfig := ⟨c.APIKey, c.BaseURL⟩

/-- NewClient constructs a new Tremendous client using the given API key. The
three services receive a pointer to the client under construction. -/
def NewClient (args : ClientArgs) : Client :=
  let baseURL := if args.Production then ProductionURL else TestflightURL
  let client : ClientConfig := { APIKey := args.ApiKey, BaseURL := baseURL }
  { APIKey := client.APIKey
    BaseURL := client.BaseURL
    Campaigns := { client := client }
    Orders := { client := client }
    Products := { client := client } }

/-- The default headers for requests, including authorization
(`(*Client).headers`, reached by the services through their client pointer). -/
def ClientConfig.headers (c : ClientConfig) : Header :=
  let h : Header := []
  let h := h.Set "Authorization" ("Bearer " ++ c.APIKey)
  let h := h.Set "Content-Type" "application/json"
  let h := h.Set "Accept" "application/json"
  let h := h.Set "User-Agent" "go-tremendous/1.0.0"
  h

/-- The method `(*Client).headers` on the client itself. -/
def Client.headers (c : Client) : Header := c.config.headers

/-! ## strings, fmt and net/url -/

/-- The set `unicode.IsSpace`: the Unicode white space characters. -/
def isSpace (c : Char) : Bool :=
  let v := c.toNat
  (9 ≤ v && v ≤ 13) || v == 0x20 || v == 0x85 || v == 0xA0 || v == 0x1680 ||
  (0x2000 ≤ v && v ≤ 0x200A) || v == 0x2028 || v == 0x2029 || v == 0x202F ||
  v == 0x205F || v == 0x3000

/-- The function `strings.TrimSpace`: the text without its leading and
trailing white space (`TrimRightFunc (TrimLeftFunc s IsSpace) IsSpace`). -/
def TrimSpace (s : String) : String :=
  ⟨(s.data.dropWhile isSpace).rdropWhile isSpace⟩

/-- The verb `%d` of `fmt` on an `int`: its decimal rendering. -/
def formatInt (n : Int) : String := toString n

/-- The bytes of the UTF-8 encoding of a character. -/
def utf8Bytes (c : Char) : List Nat :=
  let v := c.toNat
  if v < 0x80 then [v]
  else if v < 0x800 then [0xC0 + v / 64, 0x80 + v % 64]
  else if v < 0x10000 then [0xE0 + v / 4096, 0x80 + v / 64 % 64, 0x80 + v % 64]
  else [0xF0 + v / 262144, 0x80 + v / 4096 % 64, 0x80 + v / 64 % 64, 0x80 + v % 64]

/-- The value of a hexadecimal digit, either case (`ishex` and `unhex`). -/
def hexDigit (c : Char) : Option Nat :=
  if '0' ≤ c ∧ c ≤ '9' then some (c.toNat - 48)
  else if 'a' ≤ c ∧ c ≤ 'f' then some (c.toNat - 87)
  else if 'A' ≤ c ∧ c ≤ 'F' then some (c.toNat - 55)
  else none

/-- The digit of `upperhex` for a value below sixteen. -/
def upperHexDigit (n : Nat) : Char :=
  if n < 10 then Char.ofNat (48 + n) else Char.ofNat (55 + n)

/-- The test `shouldEscape` of net/url in the mode `encodeQueryComponent`:
every byte is escaped but letters, digits and the marks `-`, `_`, `.`, `~`. -/
def shouldEscape (b : Nat) : Bool :=
  !((97 ≤ b && b ≤ 122) || (65 ≤ b && b ≤ 90) || (48 ≤ b && b ≤ 57) ||
    b == 45 || b == 95 || b == 46 || b == 126)

/-- One byte of `url.QueryEscape`: a space becomes `+`, a byte that must be
escaped becomes `%` and two upper-case hexadecimal digits. -/
def escapeByte (b : Nat) : List Char :=
  if b = 32 then ['+']
  else if shouldEscape b then ['%', upperHexDigit (b / 16), upperHexDigit (b % 16)]
  else [Char.ofNat b]

/-- The function `url.QueryEscape`. -/
def QueryEscape (s : String) : String :=
  ⟨(s.data.flatMap utf8Bytes).flatMap escapeByte⟩

/-- The unreserved characters of a URL: letters, digits and the marks `-`,
`_`, `.`, `~`. -/
def isUnreserved (c : Char) : Bool :=
  c.isAlphanum || c == '-' || c == '_' || c == '.' || c == '~'

/-- The function `url.QueryUnescape`, yielding the bytes of its result: `+`
stands for a space, `%` and two hexadecimal digits for the byte they spell,
any other character for its own UTF-8 bytes; a `%` not followed by two
hexadecimal digits is an error. -/
def queryUnescapeBytes : List Char → Option (List Nat)
  | [] => some []
  | c :: rest =>
    if c = '%' then
      match rest with
      | a :: b :: rest2 =>
        match hexDigit a, hexDigit b, queryUnescapeBytes rest2 with
        | some x, some y, some t => some ((x * 16 + y) :: t)
        | _, _, _ => none
      | _ => none
    else if c = '+' then (queryUnescapeBytes rest).map (fun t => 32 :: t)
    else (queryUnescapeBytes rest).map (fun t => utf8Bytes c ++ t)

/-- The map `url.Values` from key to values, as an association list with
pairwise distinct keys. -/
abbrev Values := List (String × List String)

/-- The method `url.Values.Set`: `key` is mapped to the single value `value`. -/
def Values.Set (v : Values) (key value : String) : Values :=
  Header.assign v key [value]

/-- Insert a field into a list of fields sorted by key. -/
def insertByKey (kv : String × List String) : Values → Values
  | [] => [kv]
  | x :: xs => if kv.1 < x.1 then kv :: x :: xs else x :: insertByKey kv xs

/-- The fields in the order of their keys (`slices.Sort(keys)`). -/
def sortByKey : Values → Values
  | [] => []
  | x :: xs => insertByKey x (sortByKey xs)

/-- The pairs `key=value` of one key, both sides escaped. -/
def encodePairs (key : String) (vs : List String) : List String :=
  vs.map (fun v => QueryEscape key ++ "=" ++ QueryEscape v)

/-- The method `url.Values.Encode`: the pairs `key=value` in the order of the
keys, joined by `&`; the empty text for no pair. -/
def Values.Encode (v : Values) : String :=
  "&".intercalate ((sortByKey v).flatMap (fun kv => encodePairs kv.1 kv.2))


/-! ## encoding/json: values and the scanner -/

/-- A JSON value as `encoding/json` reads it; a number keeps its literal text. -/
inductive JSON where
  | null
  | bool (b : Bool)
  | num (raw : String)
  | str (s : String)
  | arr (elems : List JSON)
  | obj (members : List (String × JSON))
  deriving Repr

/-- The white space of JSON (`isSpace` of scanner.go). -/
def isSpaceJSON (c : Char) : Bool :=
  c == ' ' || c == '\t' || c == '\r' || c == '\n'

/-- The value of a hexadecimal digit, either case. -/
def hexVal (c : Char) : Option Nat := hexDigit c

/-- The four hexadecimal digits of a `\u` escape as a number (`getu4`). -/
def getu4 (a b c d : Char) : Option Nat :=
  match hexVal a, hexVal b, hexVal c, hexVal d with
  | some x, some y, some z, some w => some (x * 4096 + y * 256 + z * 16 + w)
  | _, _, _, _ => none

/-- The test `utf16.IsSurrogate`. -/
def isSurrogate (r : Nat) : Bool := 0xD800 ≤ r && r < 0xE000

/-- The function `utf16.DecodeRune`: the code point of a surrogate pair, or
U+FFFD when the two halves do not form one. -/
def decodeSurrogates (r1 r2 : Nat) : Nat :=
  if 0xD800 ≤ r1 ∧ r1 < 0xDC00 ∧ 0xDC00 ≤ r2 ∧ r2 < 0xE000 then
    (r1 - 0xD800) * 1024 + (r2 - 0xDC00) + 0x10000
  else 0xFFFD

/-- The second half of a surrogate pair, when the text goes on with a `\u` escape. -/
def nextU4 : List Char → Option Nat
  | '\\' :: 'u' :: a :: b :: c :: d :: _ => getu4 a b c d
  | _ => none

/-- The character a one-letter escape stands for (`unquoteBytes`). -/
def escapeValue (e : Char) : Option Char :=
  if e = '"' ∨ e = '\\' ∨ e = '/' ∨ e.toNat = 39 then some e
  else if e = 'b' then some (Char.ofNat 8)
  else if e = 'f' then some (Char.ofNat 12)
  else if e = 'n' then some '\n'
  else if e = 'r' then some '\r'
  else if e = 't' then some '\t'
  else none

/-- The function `unquoteBytes` of decode.go on the text between the quotes
of a string literal: escapes are replaced by the characters they stand for,
a `\u` surrogate pair by its code point and a lone surrogate by U+FFFD; a
quote or a control character is refused. The first argument bounds the number
of steps; the length of the text is enough. -/
def unquoteAux : Nat → List Char → Option (List Char)
  | _, [] => some []
  | 0, _ :: _ => none
  | n + 1, ch :: rest =>
    if ch = '\\' then
      match rest with
      | [] => none
      | e :: rest1 =>
        if e = 'u' then
          match rest1 with
          | a :: b :: c :: d :: rest2 =>
            match getu4 a b c d with
            | none => none
            | some rr =>
              if isSurrogate rr then
                match nextU4 rest2 with
                | some rr1 =>
                  if decodeSurrogates rr rr1 ≠ 0xFFFD then
                    (unquoteAux n (rest2.drop 6)).map
                      (fun t => Char.ofNat (decodeSurrogates rr rr1) :: t)
                  else (unquoteAux n rest2).map (fun t => Char.ofNat 0xFFFD :: t)
                | none => (unquoteAux n rest2).map (fun t => Char.ofNat 0xFFFD :: t)
              else (unquoteAux n rest2).map (fun t => Char.ofNat rr :: t)
          | _ => none
        else
          match escapeValue e with
          | some x => (unquoteAux n rest1).map (fun t => x :: t)
          | none => none
    else if ch = '"' ∨ ch.toNat < 0x20 then none
    else (unquoteAux n rest).map (fun t => ch :: t)

/-- The text of a string literal, unquoted. -/
def unquote (raw : List Char) : Option String :=
  (unquoteAux raw.length raw).map String.mk

/-- Where the scanner is inside a number (`stateNeg`, `state0`, `state1`,
`stateDot`, `stateDot0`, `stateE`, `stateESign`, `stateE0`). -/
inductive NumState where
  | neg | zero | int | dot | frac | exp | expSign | expDigits
  deriving DecidableEq, Repr

/-- The step function the scanner is in (the `step` field of scanner.go),
together with the text of the literal read so far. -/
inductive Step where
  | beginValue
  | beginValueOrEmpty
  | beginStringOrEmpty
  | beginString
  | endValue
  | inString (raw : List Char)
  | inStringEsc (raw : List Char)
  | inStringEscU (raw : List Char) (left : Nat)
  | inNumber (st : NumState) (raw : List Char)
  | inLiteral (left : List Char) (value : JSON)

/-- An entry of the scanner's `parseState` stack with what the decoder has
read of the enclosing array or object: for an object, the members read and
the key of the member being read. -/
inductive Frame where
  | arr (done : List JSON)
  | obj (done : List (String × JSON)) (key : Option String)

/-- The scanner between two characters. -/
structure Config where
  step : Step
  stack : List Frame

/-- What one character does to the scanner. -/
inductive Progress where
  | next (cfg : Config)
  | finished (value : JSON)
  | finishedBefore (value : JSON)
  | invalid

/-- The nesting of arrays and objects the scanner accepts. -/
def maxNestingDepth : Nat := 10000

/-- A value is complete: it ends the top-level value, or joins the array or
object it is in (a string read in key position becomes the pending key). -/
def deliver (v : JSON) : List Frame → Progress
  | [] => .finished v
  | .arr done :: fs => .next ⟨.endValue, .arr (done ++ [v]) :: fs⟩
  | .obj done (some k) :: fs => .next ⟨.endValue, .obj (done ++ [(k, v)]) none :: fs⟩
  | .obj done none :: fs =>
    match v with
    | .str k => .next ⟨.endValue, .obj done (some k) :: fs⟩
    | _ => .invalid

/-- The step `stateEndValue`: after a value, inside an array or object. -/
def stepEndValue (fs : List Frame) (c : Char) : Progress :=
  if isSpaceJSON c then .next ⟨.endValue, fs⟩
  else match fs with
    | [] => .invalid
    | .arr done :: rest =>
      if c = ',' then .next ⟨.beginValue, fs⟩
      else if c = ']' then deliver (.arr done) rest
      else .invalid
    | .obj _ (some _) :: _ =>
      if c = ':' then .next ⟨.beginValue, fs⟩ else .invalid
    | .obj done none :: rest =>
      if c = ',' then .next ⟨.beginString, fs⟩
      else if c = '}' then deliver (.obj done) rest
      else .invalid

/-- A value that needed a following character to end (a number): at top level
the character is left unread, inside an array or object it is read by
`stateEndValue`. -/
def deliverThen (v : JSON) (fs : List Frame) (c : Char) : Progress :=
  match deliver v fs with
  | .finished w => .finishedBefore w
  | .next cfg => stepEndValue cfg.stack c
  | p => p

/-- The step `stateBeginValue`. -/
def stepBeginValue (fs : List Frame) (c : Char) : Progress :=
  if isSpaceJSON c then .next ⟨.beginValue, fs⟩
  else if c = '{' then
    if fs.length < maxNestingDepth then .next ⟨.beginStringOrEmpty, .obj [] none :: fs⟩
    else .invalid
  else if c = '[' then
    if fs.length < maxNestingDepth then .next ⟨.beginValueOrEmpty, .arr [] :: fs⟩
    else .invalid
  else if c = '"' then .next ⟨.inString [], fs⟩
  else if c = '-' then .next ⟨.inNumber .neg [c], fs⟩
  else if c = '0' then .next ⟨.inNumber .zero [c], fs⟩
  else if '1' ≤ c ∧ c ≤ '9' then .next ⟨.inNumber .int [c], fs⟩
  else if c = 't' then .next ⟨.inLiteral ['r', 'u', 'e'] (.bool true), fs⟩
  else if c = 'f' then .next ⟨.inLiteral ['a', 'l', 's', 'e'] (.bool false), fs⟩
  else if c = 'n' then .next ⟨.inLiteral ['u', 'l', 'l'] .null, fs⟩
  else .invalid

/-- The steps of scanner.go inside a number. -/
def stepNumber (st : NumState) (raw : List Char) (fs : List Frame) (c : Char) : Progress :=
  let ends : Progress := deliverThen (.num ⟨raw⟩) fs c
  let goes (st1 : NumState) : Progress := .next ⟨.inNumber st1 (raw ++ [c]), fs⟩
  match st with
  | .neg => if c = '0' then goes .zero else if '1' ≤ c ∧ c ≤ '9' then goes .int else .invalid
  | .int => if c.isDigit then goes .int
            else if c = '.' then goes .dot
            else if c = 'e' ∨ c = 'E' then goes .exp
            else ends
  | .zero => if c = '.' then goes .dot
             else if c = 'e' ∨ c = 'E' then goes .exp
             else ends
  | .dot => if c.isDigit then goes .frac else .invalid
  | .frac => if c.isDigit then goes .frac
             else if c = 'e' ∨ c = 'E' then goes .exp
             else ends
  | .exp => if c = '+' ∨ c = '-' then goes .expSign
            else if c.isDigit then goes .expDigits
            else .invalid
  | .expSign => if c.isDigit then goes .expDigits else .invalid
  | .expDigits => if c.isDigit then goes .expDigits else ends

/-- One character through the scanner. -/
def Config.feed (cfg : Config) (c : Char) : Progress :=
  match cfg.step with
  | .beginValue => stepBeginValue cfg.stack c
  | .beginValueOrEmpty =>
    if isSpaceJSON c then .next cfg
    else if c = ']' then stepEndValue cfg.stack c
    else stepBeginValue cfg.stack c
  | .beginStringOrEmpty =>
    if isSpaceJSON c then .next cfg
    else if c = '}' then stepEndValue cfg.stack c
    else if c = '"' then .next ⟨.inString [], cfg.stack⟩
    else .invalid
  | .beginString =>
    if isSpaceJSON c then .next cfg
    else if c = '"' then .next ⟨.inString [], cfg.stack⟩
    else .invalid
  | .endValue => stepEndValue cfg.stack c
  | .inString raw =>
    if c = '"' then
      match unquote raw with
      | some s => deliver (.str s) cfg.stack
      | none => .invalid
    else if c = '\\' then .next ⟨.inStringEsc (raw ++ [c]), cfg.stack⟩
    else if c.toNat < 0x20 then .invalid
    else .next ⟨.inString (raw ++ [c]), cfg.stack⟩
  | .inStringEsc raw =>
    if c = 'b' ∨ c = 'f' ∨ c = 'n' ∨ c = 'r' ∨ c = 't' ∨ c = '\\' ∨ c = '/' ∨ c = '"' then
      .next ⟨.inString (raw ++ [c]), cfg.stack⟩
    else if c = 'u' then .next ⟨.inStringEscU (raw ++ [c]) 4, cfg.stack⟩
    else .invalid
  | .inStringEscU raw left =>
    if (hexVal c).isSome then
      if left ≤ 1 then .next ⟨.inString (raw ++ [c]), cfg.stack⟩
      else .next ⟨.inStringEscU (raw ++ [c]) (left - 1), cfg.stack⟩
    else .invalid
  | .inNumber st raw => stepNumber st raw cfg.stack c
  | .inLiteral left value =>
    match left with
    | [] => .invalid
    | [l] => if c = l then deliver value cfg.stack else .invalid
    | l :: ls => if c = l then .next ⟨.inLiteral ls value, cfg.stack⟩ else .invalid

/-- The end of the input: a top-level number that may end here is complete
(`readValue` feeds the scanner a space at the end of the stream); anything
else is an unfinished value. -/
def Config.atEnd (cfg : Config) : Option JSON :=
  match cfg.step, cfg.stack with
  | .inNumber st raw, [] =>
    if st = .zero ∨ st = .int ∨ st = .frac ∨ st = .expDigits then some (.num ⟨raw⟩) else none
  | _, _ => none

/-- Run the scanner over the input up to the end of the first value. -/
def Config.run : Config → List Char → Option (JSON × List Char)
  | cfg, [] => (cfg.atEnd).map (fun v => (v, []))
  | cfg, c :: cs =>
    match cfg.feed c with
    | .next cfg1 => Config.run cfg1 cs
    | .finished v => some (v, cs)
    | .finishedBefore v => some (v, c :: cs)
    | .invalid => none

/-- The method `(*Decoder).readValue` followed by the decoder's reading of the
literals: the first JSON value of the stream, white space before it skipped,
and the input after it, which is not looked at. -/
def readValue (input : String) : Option (JSON × List Char) :=
  Config.run ⟨.beginValue, []⟩ input.data

/-! ## encoding/json: writing values -/

/-- The digit of `hex` (lower case) for a value below sixteen. -/
def lowerHexDigit (n : Nat) : Char :=
  if n < 10 then Char.ofNat (48 + n) else Char.ofNat (87 + n)

/-- One character of a string as `appendString` of encode.go writes it with
HTML escaping on (the default of `json.Marshal`): the quote and the backslash
get a backslash, the control characters their short escape or `\u00XX`, the
characters `<`, `>`, `&`, U+2028 and U+2029 their `\u` escape, and everything
else is written as it is. (Backspace and form feed are written `\b` and `\f`
as from Go 1.22; earlier versions write `\u0008` and `\u000c`, which the
decoder reads as the same characters.) -/
def escapeRune (c : Char) : List Char :=
  let v := c.toNat
  if c = '\\' ∨ c = '"' then ['\\', c]
  else if v = 8 then ['\\', 'b']
  else if v = 12 then ['\\', 'f']
  else if v = 10 then ['\\', 'n']
  else if v = 13 then ['\\', 'r']
  else if v = 9 then ['\\', 't']
  else if v < 0x20 ∨ c = '<' ∨ c = '>' ∨ c = '&' then
    ['\\', 'u', '0', '0', lowerHexDigit (v / 16), lowerHexDigit (v % 16)]
  else if v = 0x2028 ∨ v = 0x2029 then
    ['\\', 'u', '2', '0', '2', lowerHexDigit (v % 16)]
  else [c]

/-- A string literal as `encoding/json` writes it. -/
def quote (s : String) : List Char :=
  '"' :: s.data.flatMap escapeRune ++ ['"']

mutual
/-- The compact text `encoding/json` writes for a value. -/
def JSON.render : JSON → List Char
  | .num raw => raw.data
  | .bool b => (if b then "true" else "false").data
  | .null => "null".data
  | .str s => quote s
  | .arr elems => '[' :: renderElems elems ++ [']']
  | .obj members => '{' :: renderMembers members ++ ['}']
/-- The elements of an array, separated by commas. -/
def renderElems : List JSON → List Char
  | [] => []
  | [e] => e.render
  | e :: es => e.render ++ ',' :: renderElems es
/-- The members of an object, separated by commas. -/
def renderMembers : List (String × JSON) → List Char
  | [] => []
  | [(k, v)] => quote k ++ ':' :: v.render
  | (k, v) :: ms => quote k ++ ':' :: v.render ++ ',' :: renderMembers ms
end

/-- The text of a value as a string. -/
def JSON.text (j : JSON) : String := ⟨j.render⟩

/-- The members of a struct whose string fields all carry `omitempty`: a field
holding the empty string is left out. -/
def omitEmpty (fields : List (String × String)) : List (String × JSON) :=
  (fields.filter (fun f => f.2 ≠ "")).map (fun f => (f.1, JSON.str f.2))

/-- A `*string` field without `omitempty`: `null` for a nil pointer. -/
def optionalString : Option String → JSON
  | none => .null
  | some s => .str s

/-- A `float64`, by its IEEE 754 bit pattern (taken modulo 2^64). -/
structure Float64 where
  bits : Nat
  deriving DecidableEq, Repr

/-- The exponent field of the pattern. -/
def Float64.exponent (f : Float64) : Nat := f.bits % 2 ^ 64 / 2 ^ 52 % 2048

/-- The fraction field of the pattern. -/
def Float64.fraction (f : Float64) : Nat := f.bits % 2 ^ 52

/-- The sign bit of the pattern. -/
def Float64.negative (f : Float64) : Bool := f.bits % 2 ^ 64 / 2 ^ 63 == 1

/-- The test `math.IsNaN`. -/
def Float64.isNaN (f : Float64) : Bool := f.exponent == 2047 && f.fraction != 0

/-- The test `math.IsInf(f, 0)`. -/
def Float64.isInf (f : Float64) : Bool := f.exponent == 2047 && f.fraction == 0

/-- The comparison `f == 0`, true of both zeros. -/
def Float64.isZero (f : Float64) : Bool := f.exponent == 0 && f.fraction == 0

/-- The message of the `UnsupportedValueError` that `encoding/json` returns for
a `float64` that is NaN or infinite. -/
def unsupportedValue (f : Float64) : String :=
  "json: unsupported value: " ++
    (if f.isNaN then "NaN" else if f.negative then "-Inf" else "+Inf")

/-- The encoder of `float64` (`floatEncoder.encode`): NaN and the infinities are
an error; a finite value is written as the number text `format` gives it. -/
def encodeFloat (format : Float64 → String) (f : Float64) : Except String JSON :=
  if f.isInf || f.isNaN then .error (unsupportedValue f) else .ok (.num (format f))

/-! ## campaigns.go: records and their JSON form -/

/-- Campaign represents a single campaign record from Tremendous. -/
structure Campaign where
  ID : String := ""
  Name : String := ""
  Description : String := ""
  Status : String := ""
  deriving DecidableEq, Repr

/-- The record `listCampaignsResponse` models the JSON response for GET /campaigns.
A nil slice and an empty slice are both the empty list. -/
structure listCampaignsResponse where
  Campaigns : List Campaign := []
  deriving DecidableEq, Repr

/-- The anonymous struct `single` of `Retrieve`, with its one field `campaign`. -/
structure singleCampaignResponse where
  Campaign : Campaign := {}
  deriving DecidableEq, Repr

/-- What `encoding/json` writes for a `Campaign`: every field is `omitempty`. -/
def Campaign.toJSON (c : Campaign) : JSON :=
  .obj (omitEmpty [("id", c.ID), ("name", c.Name), ("description", c.Description),
    ("status", c.Status)])

/-- What `encoding/json` writes for a `listCampaignsResponse` holding a
non-nil slice. -/
def listCampaignsResponse.toJSON (r : listCampaignsResponse) : JSON :=
  .obj [("campaigns", .arr (r.Campaigns.map Campaign.toJSON))]

/-! ## encoding/json: binding a value to a record -/

/-- The folding of a rune for the case-insensitive match of a key (`foldRune`):
an ASCII letter folds to its upper case, and so do the two other runes whose
simple case folding reaches an ASCII letter, U+017F (long s) and U+212A
(Kelvin sign). Every other rune folds outside ASCII; as the field names here
are ASCII, such a rune is left as it is. -/
def foldRune (c : Char) : Char :=
  if c.isLower then c.toUpper
  else if c.toNat = 0x17F then 'S'
  else if c.toNat = 0x212A then 'K'
  else c

/-- The folded form of a key (`foldName`). -/
def foldName (s : String) : String := ⟨s.data.map foldRune⟩

/-- The field a key of a JSON object stands for: the field of exactly that
name, or else the first field whose folded name is the folded key. -/
def lookupField (names : List String) (key : String) : Option String :=
  if names.contains key then some key
  else names.find? (fun n => foldName n == foldName key)

/-- Store a JSON value in a `string` field (`literalStore`): a string is
stored, `null` leaves the field as it is, any other value is an
`UnmarshalTypeError`, here `none`. -/
def storeString (cur : String) : JSON → Option String
  | .str s => some s
  | .null => some cur
  | _ => none

/-- One member of a JSON object into a `Campaign`; a key that names no field
is skipped. -/
def Campaign.setField (c : Campaign) (key : String) (v : JSON) : Option Campaign :=
  match lookupField ["id", "name", "description", "status"] key with
  | some "id" => (storeString c.ID v).map (fun s => { c with ID := s })
  | some "name" => (storeString c.Name v).map (fun s => { c with Name := s })
  | some "description" => (storeString c.Description v).map (fun s => { c with Description := s })
  | some "status" => (storeString c.Status v).map (fun s => { c with Status := s })
  | _ => some c

/-- A JSON value into a `Campaign` that holds `cur`: the members of an object
are stored one after the other, `null` changes nothing, any other value is an
`UnmarshalTypeError`. A type error does not stop `encoding/json`, but makes
`Decode` return an error at the end; the callers then drop the record, so the
binding stops at the first one. -/
def Campaign.unmarshal (cur : Campaign) : JSON → Option Campaign
  | .obj members => members.foldlM (fun c kv => c.setField kv.1 kv.2) cur
  | .null => some cur
  | _ => none

/-- A `[]Campaign` while it is decoded: the records written to its backing
array so far (the array holds zero records past them) and the length of the
slice. Shortening the slice keeps the array, and so does growing it
(`reflect.Value.Grow` preserves the memory between length and capacity), so
a record written once stays in the array until the slice is replaced. -/
structure CampaignSlice where
  backing : List Campaign := []
  len : Nat := 0
  deriving DecidableEq, Repr

/-- The records of the slice: the first `len` of the backing array. -/
def CampaignSlice.records (s : CampaignSlice) : List Campaign :=
  s.backing.take s.len

/-- The slice a `[]Campaign` field holds before decoding. -/
def CampaignSlice.ofList (l : List Campaign) : CampaignSlice :=
  { backing := l, len := l.length }

/-- The elements of a JSON array into a backing array (`(*decodeState).array`):
element `i` is bound into the `i`-th record of the array, whether or not the
slice reached that far, and into a zero record past the records written; the
records after the last element stay in the array. -/
def unmarshalCampaigns : List Campaign → List JSON → Option (List Campaign)
  | backing, [] => some backing
  | backing, e :: es =>
    match Campaign.unmarshal (backing.headD {}) e, unmarshalCampaigns backing.tail es with
    | some c, some rest => some (c :: rest)
    | _, _ => none

/-- A JSON value into a `[]Campaign` field: an array is bound element by
element into the backing array and the slice is cut to the number of
elements, an empty array and `null` replace the slice by a fresh empty or nil
one, any other value is an `UnmarshalTypeError`. -/
def storeCampaigns (s : CampaignSlice) : JSON → Option CampaignSlice
  | .arr elems =>
    match elems with
    | [] => some {}
    | _ :: _ => (unmarshalCampaigns s.backing elems).map
        (fun b => { backing := b, len := elems.length })
  | .null => some {}
  | _ => none

/-- A JSON value into a `listCampaignsResponse`: the members of an object are
stored one after the other, the slice keeping its backing array between two
members of the same key. -/
def listCampaignsResponse.unmarshal (cur : listCampaignsResponse) :
    JSON → Option listCampaignsResponse
  | .obj members => (members.foldlM (fun (s : CampaignSlice) (kv : String × JSON) =>
      match lookupField ["campaigns"] kv.1 with
      | some _ => storeCampaigns s kv.2
      | none => some s) (CampaignSlice.ofList cur.Campaigns)).map
        (fun (s : CampaignSlice) => ({ Campaigns := s.records } : listCampaignsResponse))
  | .null => some cur
  | _ => none

/-- A JSON value into the `single` struct of `Retrieve`. -/
def singleCampaignResponse.unmarshal (cur : singleCampaignResponse) :
    JSON → Option singleCampaignResponse
  | .obj members => members.foldlM (fun r kv =>
      match lookupField ["campaign"] kv.1 with
      | some _ => (Campaign.unmarshal r.Campaign kv.2).map (fun c => { r with Campaign := c })
      | none => some r) cur
  | .null => some cur
  | _ => none

/-! ## orders.go and products.go: records -/

/-- An instant of `time.Time`; the library stores it and never looks at it. -/
structure Time where
  unixNano : Int := 0
  deriving DecidableEq, Repr

/-- OrderDenomination denominates the reward's monetary value. -/
structure OrderDenomination where
  Denomination : Float64 := ⟨0⟩
  CurrencyCode : String := ""
  deriving DecidableEq, Repr

/-- OrderDelivery designates how an order's reward is delivered. -/
structure OrderDelivery where
  Method : String := ""
  Status : String := ""
  Link : String := ""
  deriving DecidableEq, Repr

/-- OrderRecipient contains details about reward recipients. -/
structure OrderRecipient where
  Email : String := ""
  Name : String := ""
  deriving DecidableEq, Repr

/-- Payment captures details of the payment object used by the order. -/
structure Payment where
  FundingSourceID : String := ""
  Amount : Float64 := ⟨0⟩
  CurrencyCode : String := ""
  Object : String := ""
  deriving DecidableEq, Repr

/-- Reward captures details of a reward that has been paid out. -/
structure Reward where
  ID : String := ""
  OrderID : String := ""
  CreatedAt : Time := {}
  Value : OrderDenomination := {}
  Delivery : OrderDelivery := {}
  Recipient : OrderRecipient := {}
  deriving DecidableEq, Repr

/-- Order represents the JSON structure of an order in the Tremendous API. -/
structure Order where
  ID : String := ""
  ExternalID : String := ""
  CreatedAt : Time := {}
  Message : String := ""
  Status : String := ""
  Payment : Payment := {}
  Rewards : List Reward := []
  deriving DecidableEq, Repr

/-- OrderPaymentArg describes an order's payment details. -/
structure OrderPaymentArg where
  FundingSourceID : String := ""
  deriving DecidableEq, Repr

/-- RewardArg is subset of field for on order reward. The slice `Products` is
`none` when nil. -/
structure RewardArg where
  CampaignID : Option String := none
  Delivery : OrderDelivery := {}
  Products : Option (List String) := none
  Recipient : OrderRecipient := {}
  Value : OrderDenomination := {}
  deriving DecidableEq, Repr

/-- OrderArgs is the request struct for creating an order. -/
structure OrderArgs where
  CampaignID : Option String := none
  ExternalID : Option String := none
  Payment : OrderPaymentArg := {}
  Reward : RewardArg := {}
  deriving DecidableEq, Repr

/-- The record `singleOrderResponse` models the JSON for a single order return. -/
structure singleOrderResponse where
  Order : Order := {}
  deriving DecidableEq, Repr

/-- The record `listOrdersResponse` models the JSON for a multi-order listing. -/
structure listOrdersResponse where
  Orders : List Order := []
  deriving DecidableEq, Repr

/-- Product is a fully parsed product object. -/
structure Product where
  ID : String := ""
  Name : String := ""
  Brand : String := ""
  Description : String := ""
  Price : Float64 := ⟨0⟩
  Currency : String := ""
  Object : String := ""
  deriving DecidableEq, Repr

/-- CreateProduct is the structure inside the top-level "product" key for creation. -/
structure CreateProduct where
  Name : String := ""
  Brand : String := ""
  Description : String := ""
  Price : Float64 := ⟨0⟩
  Currency : String := ""
  deriving DecidableEq, Repr

/-- CreateProductArgs is the typed request for creating a new product. -/
structure CreateProductArgs where
  Product : CreateProduct := {}
  deriving DecidableEq, Repr

/-- The record `singleProductResponse` models the JSON for a single product. -/
structure singleProductResponse where
  Product : Product := {}
  deriving DecidableEq, Repr

/-- The record `listProductsResponse` models the JSON structure for multiple products. -/
structure listProductsResponse where
  Products : List Product := []
  deriving DecidableEq, Repr

/-- ListProductsOptions specifies optional query filters, such as country. -/
structure ListProductsOptions where
  Country : String := ""
  deriving DecidableEq, Repr

/-! ## orders.go and products.go: the JSON form of the request records -/

/-- What `encoding/json` writes for an `OrderDelivery`. -/
def OrderDelivery.toJSON (d : OrderDelivery) : JSON :=
  .obj [("method", .str d.Method), ("status", .str d.Status), ("link", .str d.Link)]

/-- What `encoding/json` writes for an `OrderRecipient`: both fields are `omitempty`. -/
def OrderRecipient.toJSON (r : OrderRecipient) : JSON :=
  .obj (omitEmpty [("email", r.Email), ("name", r.Name)])

/-- What `encoding/json` writes for an `OrderDenomination`, or its error. -/
def OrderDenomination.toJSON (format : Float64 → String) (d : OrderDenomination) :
    Except String JSON :=
  match encodeFloat format d.Denomination with
  | .error e => .error e
  | .ok n => .ok (.obj [("denomination", n), ("currency_code", .str d.CurrencyCode)])

/-- What `encoding/json` writes for an `OrderPaymentArg`: the field is `omitempty`. -/
def OrderPaymentArg.toJSON (p : OrderPaymentArg) : JSON :=
  .obj (omitEmpty [("funding_source_id", p.FundingSourceID)])

/-- What `encoding/json` writes for a `[]string` without `omitempty`. -/
def stringsToJSON : Option (List String) → JSON
  | none => .null
  | some l => .arr (l.map JSON.str)

/-- What `encoding/json` writes for a `RewardArg`, or its error. -/
def RewardArg.toJSON (format : Float64 → String) (r : RewardArg) : Except String JSON :=
  match r.Value.toJSON format with
  | .error e => .error e
  | .ok value => .ok (.obj [("campaign_id", optionalString r.CampaignID),
      ("delivery", r.Delivery.toJSON), ("products", stringsToJSON r.Products),
      ("recipient", r.Recipient.toJSON), ("value", value)])

/-- What `encoding/json` writes for an `OrderArgs`, or its error. -/
def OrderArgs.toJSON (format : Float64 → String) (a : OrderArgs) : Except String JSON :=
  match a.Reward.toJSON format with
  | .error e => .error e
  | .ok reward => .ok (.obj [("campaign_id", optionalString a.CampaignID),
      ("external_id", optionalString a.ExternalID), ("payment", a.Payment.toJSON),
      ("reward", reward)])

/-- What `encoding/json` writes for a `CreateProduct`, or its error: every field
is `omitempty`, and a price that is zero is left out. -/
def CreateProduct.toJSON (format : Float64 → String) (p : CreateProduct) : Except String JSON :=
  let before := omitEmpty [("name", p.Name), ("brand", p.Brand), ("description", p.Description)]
  let after := omitEmpty [("currency", p.Currency)]
  if p.Price.isZero then .ok (.obj (before ++ after))
  else match encodeFloat format p.Price with
    | .error e => .error e
    | .ok n => .ok (.obj (before ++ [("price", n)] ++ after))

/-- What `encoding/json` writes for a `CreateProductArgs`, or its error. -/
def CreateProductArgs.toJSON (format : Float64 → String) (a : CreateProductArgs) :
    Except String JSON :=
  match a.Product.toJSON format with
  | .error e => .error e
  | .ok product => .ok (.obj [("product", product)])

/-! ## net/http and the environment -/

/-- The `http.Request` as far as the library fills it in. -/
structure Request where
  Method : String
  URL : String
  Header : Header
  Body : Option String
  deriving DecidableEq, Repr

/-- The `http.Response` as far as the library reads it; `Body` is everything
the body stream yields, and the stream is taken to end without a read error. -/
structure Response where
  StatusCode : Int
  Body : String
  deriving DecidableEq, Repr

/-- What the library does not decide itself. -/
structure Env where
  /-- The error `http.NewRequest` returns for a method and a URL, if any. -/
  newRequestError : String → String → Option String
  /-- The call `http.DefaultClient.Do`: the response, or the transport error. -/
  Do : Request → Except String Response
  /-- The number text `encoding/json` writes for a finite `float64`. -/
  formatFloat : Float64 → String
  /-- The message of the error `Decode` returns when it fails, by target type and body. -/
  decodeError : String → String → String
  /-- The binding of the text of a JSON value to a `singleOrderResponse`. -/
  unmarshalSingleOrder : String → Option singleOrderResponse
  /-- The binding of the text of a JSON value to a `listOrdersResponse`. -/
  unmarshalListOrders : String → Option listOrdersResponse
  /-- The binding of the text of a JSON value to a `singleProductResponse`. -/
  unmarshalSingleProduct : String → Option singleProductResponse
  /-- The binding of the text of a JSON value to a `listProductsResponse`. -/
  unmarshalListProducts : String → Option listProductsResponse

/-- The function `http.NewRequest`: a request with an empty header, or the error. -/
def Env.NewRequest (env : Env) (method url : String) (body : Option String) :
    Except String Request :=
  match env.newRequestError method url with
  | some err => .error err
  | none => .ok { Method := method, URL := url, Header := [], Body := body }

/-- The text of the value `readValue` delimits: the input without what follows the value. -/
def valueText (body : String) (rest : List Char) : String :=
  ⟨body.data.take (body.data.length - rest.length)⟩

/-- The call `json.NewDecoder(body).Decode(&v)`: the first value of the body is
delimited and bound to the target by `unmarshal`, which is given the value
and its text. -/
def Decode {α : Type} (env : Env) (target : String) (unmarshal : JSON → String → Option α)
    (body : String) : Except String α :=
  match readValue body with
  | none => .error (env.decodeError target body)
  | some (j, rest) =>
    match unmarshal j (valueText body rest) with
    | some v => .ok v
    | none => .error (env.decodeError target body)

/-- The call `json.Marshal` on a JSON form or the error of building it. -/
def Marshal (j : Except String JSON) : Except String String :=
  match j with
  | .error e => .error e
  | .ok v => .ok v.text

/-- The error `fmt.Errorf("unexpected status code %d: %s", code, body)`. -/
def unexpectedStatus (resp : Response) : String :=
  "unexpected status code " ++ formatInt resp.StatusCode ++ ": " ++ resp.Body

/-- What an operation did and returned: the requests handed to
`http.DefaultClient.Do`, in order, the lines written to the log, and the Go result. -/
structure Outcome (α : Type) where
  calls : List Request
  logged : List String
  result : Except String α

/-! ## campaigns.go: operations -/

/-- List fetches a filtered list of campaigns from the API. -/
def CampaignsService.List (env : Env) (cs : CampaignsService) : Outcome (List Campaign) :=
  let baseURL := cs.client.BaseURL ++ "/campaigns"
  match env.NewRequest "GET" baseURL none with
  | .error err => ⟨[], [], .error err⟩
  | .ok req =>
    let req := { req with Header := cs.client.headers }
    match env.Do req with
    | .error err => ⟨[req], [], .error err⟩
    | .ok resp =>
      if resp.StatusCode ≠ 200 then ⟨[req], [], .error (unexpectedStatus resp)⟩
      else
        match Decode env "listCampaignsResponse"
            (fun j _ => listCampaignsResponse.unmarshal {} j) resp.Body with
        | .error err => ⟨[req], [], .error ("failed to decode campaigns list: " ++ err)⟩
        | .ok answer => ⟨[req], [], .ok answer.Campaigns⟩

/-- Retrieve fetches a single campaign by its ID if needed. -/
def CampaignsService.Retrieve (env : Env) (cs : CampaignsService) (campaignID : String) :
    Outcome Campaign :=
  let campaignID := TrimSpace campaignID
  let urlStr := cs.client.BaseURL ++ "/campaigns/" ++ campaignID
  match env.NewRequest "GET" urlStr none with
  | .error err => ⟨[], [], .error err⟩
  | .ok req =>
    let req := { req with Header := cs.client.headers }
    match env.Do req with
    | .error err => ⟨[req], [], .error err⟩
    | .ok resp =>
      if resp.StatusCode ≠ 200 then ⟨[req], [], .error (unexpectedStatus resp)⟩
      else
        match Decode env "singleCampaignResponse"
            (fun j _ => singleCampaignResponse.unmarshal {} j) resp.Body with
        | .error err => ⟨[req], [], .error ("failed to decode single campaign: " ++ err)⟩
        | .ok single => ⟨[req], [], .ok single.Campaign⟩

/-! ## orders.go: operations -/

/-- List fetches all orders. -/
def OrdersService.List (env : Env) (s : OrdersService) : Outcome (List Order) :=
  let url := s.client.BaseURL ++ "/orders"
  match env.NewRequest "GET" url none with
  | .error err => ⟨[], [], .error err⟩
  | .ok req =>
    let req := { req with Header := s.client.headers }
    match env.Do req with
    | .error err => ⟨[req], [], .error err⟩
    | .ok resp =>
      if resp.StatusCode ≠ 200 then ⟨[req], [], .error (unexpectedStatus resp)⟩
      else
        match Decode env "listOrdersResponse"
            (fun _ text => env.unmarshalListOrders text) resp.Body with
        | .error err => ⟨[req], [], .error ("failed to decode orders list: " ++ err)⟩
        | .ok ordersResp => ⟨[req], [], .ok ordersResp.Orders⟩

/-- Retrieve fetches a single order by its ID. -/
def OrdersService.Retrieve (env : Env) (s : OrdersService) (orderID : String) :
    Outcome Order :=
  let orderID := TrimSpace orderID
  let url := s.client.BaseURL ++ "/orders/" ++ orderID
  match env.NewRequest "GET" url none with
  | .error err => ⟨[], [], .error err⟩
  | .ok req =>
    let req := { req with Header := s.client.headers }
    match env.Do req with
    | .error err => ⟨[req], [], .error err⟩
    | .ok resp =>
      if resp.StatusCode ≠ 200 then ⟨[req], [], .error (unexpectedStatus resp)⟩
      else
        match Decode env "singleOrderResponse"
            (fun _ text => env.unmarshalSingleOrder text) resp.Body with
        | .error err => ⟨[req], [], .error ("failed to decode single order: " ++ err)⟩
        | .ok singleResp => ⟨[req], [], .ok singleResp.Order⟩

/-- The message of the client-side validation error of `Create`. -/
def fundingSourceRequired : String :=
  "the 'payment.funding_source_id' field is required but was empty"

/-- Create sends a new order to the Tremendous API for creation. -/
def OrdersService.Create (env : Env) (s : OrdersService) (args : OrderArgs) : Outcome Order :=
  let url := s.client.BaseURL ++ "/orders"
  if args.Payment.FundingSourceID = "" then ⟨[], [], .error fundingSourceRequired⟩
  else
    match Marshal (args.toJSON env.formatFloat) with
    | .error err => ⟨[], [], .error ("failed to marshal CreateOrderArgs: " ++ err)⟩
    | .ok bodyBytes =>
      let logged := ["Request " ++ bodyBytes]
      match env.NewRequest "POST" url (some bodyBytes) with
      | .error err => ⟨[], logged, .error err⟩
      | .ok req =>
        let req := { req with Header := s.client.headers }
        match env.Do req with
        | .error err => ⟨[req], logged, .error err⟩
        | .ok resp =>
          if resp.StatusCode ≠ 201 ∧ resp.StatusCode ≠ 200 then
            ⟨[req], logged, .error (unexpectedStatus resp)⟩
          else
            match Decode env "singleOrderResponse"
                (fun _ text => env.unmarshalSingleOrder text) resp.Body with
            | .error err =>
              ⟨[req], logged, .error ("failed to decode create order response: " ++ err)⟩
            | .ok singleResp => ⟨[req], logged, .ok singleResp.Order⟩

/-! ## products.go: operations -/

/-- The URL `List` requests: the query is built only when options are given,
and appended only when it is not empty. -/
def ProductsService.listURL (ps : ProductsService) (opts : Option ListProductsOptions) : String :=
  let base := ps.client.BaseURL ++ "/products"
  match opts with
  | none => base
  | some opts =>
    let queryVals : Values := []
    let queryVals := if opts.Country ≠ "" then queryVals.Set "country" opts.Country else queryVals
    let encoded := queryVals.Encode
    if encoded ≠ "" then base ++ "?" ++ encoded else base

/-- List retrieves all products, optionally filtering by country. -/
def ProductsService.List (env : Env) (ps : ProductsService) (opts : Option ListProductsOptions) :
    Outcome (List Product) :=
  let base := ps.listURL opts
  match env.NewRequest "GET" base none with
  | .error err => ⟨[], [], .error err⟩
  | .ok req =>
    let req := { req with Header := ps.client.headers }
    match env.Do req with
    | .error err => ⟨[req], [], .error err⟩
    | .ok resp =>
      if resp.StatusCode ≠ 200 then ⟨[req], [], .error (unexpectedStatus resp)⟩
      else
        match Decode env "listProductsResponse"
            (fun _ text => env.unmarshalListProducts text) resp.Body with
        | .error err => ⟨[req], [], .error ("failed to decode products list: " ++ err)⟩
        | .ok listResp => ⟨[req], [], .ok listResp.Products⟩

/-- Create adds a new product to the Tremendous API. -/
def ProductsService.Create (env : Env) (ps : ProductsService) (args : CreateProductArgs) :
    Outcome Product :=
  let url := ps.client.BaseURL ++ "/products"
  match Marshal (args.toJSON env.formatFloat) with
  | .error err => ⟨[], [], .error ("failed to marshal CreateProductArgs: " ++ err)⟩
  | .ok jsonBytes =>
    match env.NewRequest "POST" url (some jsonBytes) with
    | .error err => ⟨[], [], .error err⟩
    | .ok req =>
      let req := { req with Header := ps.client.headers }
      match env.Do req with
      | .error err => ⟨[req], [], .error err⟩
      | .ok resp =>
        if resp.StatusCode ≠ 201 ∧ resp.StatusCode ≠ 200 then
          ⟨[req], [], .error (unexpectedStatus resp)⟩
        else
          match Decode env "singleProductResponse"
              (fun _ text => env.unmarshalSingleProduct text) resp.Body with
          | .error err =>
            ⟨[req], [], .error ("failed to decode create product response: " ++ err)⟩
          | .ok singleResp => ⟨[req], [], .ok singleResp.Product⟩

/-- Retrieve fetches a single product by its ID. -/
def ProductsService.Retrieve (env : Env) (ps : ProductsService) (productID : String) :
    Outcome Product :=
  let productID := TrimSpace productID
  let url := ps.client.BaseURL ++ "/products/" ++ productID
  match env.NewRequest "GET" url none with
  | .error err => ⟨[], [], .error err⟩
  | .ok req =>
    let req := { req with Header := ps.client.headers }
    match env.Do req with
    | .error err => ⟨[req], [], .error err⟩
    | .ok resp =>
      if resp.StatusCode ≠ 200 then ⟨[req], [], .error (unexpectedStatus resp)⟩
      else
        match Decode env "singleProductResponse"
            (fun _ text => env.unmarshalSingleProduct text) resp.Body with
        | .error err => ⟨[req], [], .error ("failed to decode single product: " ++ err)⟩
        | .ok singleResp => ⟨[req], [], .ok singleResp.Product⟩

/-! ## A concrete environment for the examples -/

/-- An environment whose network answers every request with the given
response, that accepts every URL, writes every float as `1` and binds no
order or product. -/
def Env.answering (resp : Response) : Env where
  newRequestError := fun _ _ => none
  Do := fun _ => .ok resp
  formatFloat := fun _ => "1"
  decodeError := fun _ _ => "invalid"
  unmarshalSingleOrder := fun _ => none
  unmarshalListOrders := fun _ => none
  unmarshalSingleProduct := fun _ => none
  unmarshalListProducts := fun _ => none

/-- The testflight client with the key `k`. -/
def testClient : Client := NewClient { ApiKey := "k", Production := false }

/-! ## The request and response template the eight operations share -/

/-- The environment lets the request through and answers it: `http.NewRequest`
accepts its method and URL, and the network answers it with `resp`. -/
def Env.Answers (env : Env) (req : Request) (resp : Response) : Prop :=
  env.newRequestError req.Method req.URL = none ∧ env.Do req = .ok resp

/-- The common course of an operation once its URL and body are built: build
the request, send it, accept or refuse the status, decode the body. -/
def roundTrip {α β : Type} (env : Env) (method url : String) (body : Option String)
    (hdr : Header) (logged : List String) (accepted : Int → Bool) (context : String)
    (decode : String → Except String α) (pick : α → β) : Outcome β :=
  match env.newRequestError method url with
  | some err => ⟨[], logged, .error err⟩
  | none =>
    match env.Do ⟨method, url, hdr, body⟩ with
    | .error err => ⟨[⟨method, url, hdr, body⟩], logged, .error err⟩
    | .ok resp =>
      if accepted resp.StatusCode then
        match decode resp.Body with
        | .error err => ⟨[⟨method, url, hdr, body⟩], logged, .error (context ++ err)⟩
        | .ok v => ⟨[⟨method, url, hdr, body⟩], logged, .ok (pick v)⟩
      else ⟨[⟨method, url, hdr, body⟩], logged, .error (unexpectedStatus resp)⟩

/-- The operation handed exactly one request to the network, and the network
answered it with `resp`. -/
def Answered {α : Type} (env : Env) (o : Outcome α) (resp : Response) : Prop :=
  ∃ req, o.calls = [req] ∧ env.Do req = .ok resp

/-- The result of an operation on an accepted status: the decoded value, or the
decoder's error behind the operation's context. -/
def decoded {α β : Type} (context : String) (r : Except String α) (pick : α → β) :
    Except String β :=
  match r with
  | .error err => .error (context ++ err)
  | .ok v => .ok (pick v)

/-- The order of the example program `place_order`, for a campaign `C1`. -/
def exampleOrder : OrderArgs where
  Payment := { FundingSourceID := "BALANCE" }
  Reward := {
    CampaignID := some "C1"
    Recipient := { Name := "Testy McTesterson", Email := "testy@example.com" }
    Value := { Denomination := ⟨0x3FF0000000000000⟩, CurrencyCode := "USD" }
    Delivery := { Method := "LINK" } }

/-- A product to create: a ten-dollar gift card. -/
def exampleProduct : CreateProductArgs where
  Product := { Name := "Gift card", Price := ⟨0x4024000000000000⟩, Currency := "USD" }

/-- The order of the example program with a denomination that is not a number. -/
def nanOrder : OrderArgs :=
  { exampleOrder with
    Reward := { exampleOrder.Reward with
      Value := { Denomination := ⟨0x7FF8000000000000⟩, CurrencyCode := "USD" } } }

/-- A member list whose values are all strings. -/
def stringMembers (ms : List (String × String)) : List (String × JSON) :=
  ms.map (fun f => (f.1, JSON.str f.2))

/-- The fields of a campaign that `encoding/json` writes: those not empty. -/
def campaignMembers (c : Campaign) : List (String × String) :=
  [("id", c.ID), ("name", c.Name), ("description", c.Description),
    ("status", c.Status)].filter (fun f => f.2 ≠ "")

/-- The value is a number. -/
def JSON.isNum : JSON → Bool
  | .num _ => true
  | _ => false

/-- The test `json.Valid`: the text is one JSON value, with nothing but white
space around it. -/
def validJSON (body : String) : Bool :=
  match readValue body with
  | some (_, rest) => rest.all isSpaceJSON
  | none => false

/-- What an operation returns for a response of an accepted status, in terms
of the body: the decoded value or the decoder's error behind the operation's
context; never the unexpected-status error; a value only when the body
begins with a JSON value that binds to the target; and the decode error when
no leading value binds. -/
def OnAccepted {α β : Type} (env : Env) (result : Except String β) (context target : String)
    (unmarshal : JSON → String → Option α) (pick : α → β) (body : String) : Prop :=
  result = decoded context (Decode env target unmarshal body) pick ∧
  (∀ r : Response, result ≠ .error (unexpectedStatus r)) ∧
  (∀ v, result = .ok v → ∃ j rest a, readValue body = some (j, rest) ∧
    unmarshal j (valueText body rest) = some a ∧ v = pick a) ∧
  ((∀ j rest, readValue body = some (j, rest) → unmarshal j (valueText body rest) = none) →
    result = .error (context ++ env.decodeError target body)) ∧
  StartsWith context "failed to decode"

/-- C2: `NewClient` is total; the client it returns carries the given API key
unchanged, has the production URL "https://api.tremendous.com/api/v2" as base
URL when `Production` is set and the testflight URL
"https://testflight.tremendous.com/api/v2" when it is not, and each of its
three services points at that same client configuration. -/
theorem newClient_fields (args : ClientArgs) :
    (NewClient args).APIKey = args.ApiKey ∧
    (NewClient args).BaseURL = (if args.Production = true then ProductionURL else TestflightURL) ∧
    ProductionURL = "https://api.tremendous.com/api/v2" ∧
    TestflightURL = "https://testflight.tremendous.com/api/v2" ∧
    (NewClient args).Campaigns.client = (NewClient args).config ∧
    (NewClient args).Orders.client = (NewClient args).config ∧
    (NewClient args).Products.client = (NewClient args).config :=
  ⟨rfl, rfl, rfl, rfl, rfl, rfl, rfl⟩

/-- C3: for every API key `k` and environment flag `p` the header set of
`NewClient {k, p}` has exactly four fields: Authorization with the single
value "Bearer " followed by `k`, Content-Type and Accept with the single
value "application/json", User-Agent with the single value
"go-tremendous/1.0.0"; every other field name is absent, and the set is the
same for both values of `p`. -/
theorem headers_exactly_four (k : String) (p : Bool) :
    (NewClient { ApiKey := k, Production := p }).headers.length = 4 ∧
    ((NewClient { ApiKey := k, Production := p }).headers.map (fun kv => kv.1)).Nodup ∧
    (∀ name, (NewClient { ApiKey := k, Production := p }).headers.values name =
      if name = "Authorization" then some ["Bearer " ++ k]
      else if name = "Content-Type" then some ["application/json"]
      else if name = "Accept" then some ["application/json"]
      else if name = "User-Agent" then some ["go-tremendous/1.0.0"]
      else none) ∧
    (NewClient { ApiKey := k, Production := p }).headers =
      (NewClient { ApiKey := k, Production := !p }).headers := by
  have hk : ∀ q, (NewClient { ApiKey := k, Production := q }).headers =
      [("Authorization", ["Bearer " ++ k]), ("Content-Type", ["application/json"]),
       ("Accept", ["application/json"]), ("User-Agent", ["go-tremendous/1.0.0"])] := by
    intro q
    have e1 : CanonicalMIMEHeaderKey "Authorization" = "Authorization" := by decide
    have e2 : CanonicalMIMEHeaderKey "Content-Type" = "Content-Type" := by decide
    have e3 : CanonicalMIMEHeaderKey "Accept" = "Accept" := by decide
    have e4 : CanonicalMIMEHeaderKey "User-Agent" = "User-Agent" := by decide
    simp [Client.headers, ClientConfig.headers, Client.config, NewClient, Header.Set,
      Header.assign, e1, e2, e3, e4]
  rw [hk p, hk (!p)]
  refine ⟨rfl, by simp, ?_, rfl⟩
  intro name
  simp only [Header.values]
  by_cases h1 : name = "Authorization"
  · subst h1; simp
  by_cases h2 : name = "Content-Type"
  · subst h2; simp
  by_cases h3 : name = "Accept"
  · subst h3; simp
  by_cases h4 : name = "User-Agent"
  · subst h4; simp
  simp [h1, h2, h3, h4, Ne.symm h1, Ne.symm h2, Ne.symm h3, Ne.symm h4]

/-! ### The operations in terms of the shared template -/

theorem roundTrip_calls {α β : Type} (env : Env) (method url : String) (body : Option String)
    (hdr : Header) (logged : List String) (accepted : Int → Bool) (context : String)
    (decode : String → Except String α) (pick : α → β) :
    (roundTrip env method url body hdr logged accepted context decode pick).calls =
      if env.newRequestError method url = none then [⟨method, url, hdr, body⟩] else [] := by
  unfold roundTrip
  cases env.newRequestError method url with
  | some e => simp
  | none =>
    dsimp only
    cases env.Do ⟨method, url, hdr, body⟩ with
    | error e => simp
    | ok resp =>
      dsimp only
      split
      · cases decode resp.Body <;> simp
      · simp

theorem roundTrip_result {α β : Type} (env : Env) (method url : String) (body : Option String)
    (hdr : Header) (logged : List String) (accepted : Int → Bool) (context : String)
    (decode : String → Except String α) (pick : α → β) (resp : Response)
    (h : Answered env (roundTrip env method url body hdr logged accepted context decode pick) resp) :
    (roundTrip env method url body hdr logged accepted context decode pick).result =
      if accepted resp.StatusCode then decoded context (decode resp.Body) pick
      else .error (unexpectedStatus resp) := by
  obtain ⟨req, hc, hd⟩ := h
  rw [roundTrip_calls] at hc
  split at hc
  · rename_i hn
    simp only [List.cons.injEq, and_true] at hc
    subst hc
    unfold roundTrip
    rw [hn]
    dsimp only
    rw [hd]
    dsimp only
    split
    · unfold decoded
      cases decode resp.Body <;> rfl
    · rfl
  · simp at hc

/-- The template on an environment that lets the request through and answers
it: the one request is sent, and the status decides between decoding and the
unexpected-status error. -/
theorem roundTrip_answers {α β : Type} (env : Env) (method url : String) (body : Option String)
    (hdr : Header) (logged : List String) (accepted : Int → Bool) (context : String)
    (decode : String → Except String α) (pick : α → β) (resp : Response)
    (h : env.Answers ⟨method, url, hdr, body⟩ resp) :
    (roundTrip env method url body hdr logged accepted context decode pick).calls =
      [⟨method, url, hdr, body⟩] ∧
    (roundTrip env method url body hdr logged accepted context decode pick).result =
      if accepted resp.StatusCode then decoded context (decode resp.Body) pick
      else .error (unexpectedStatus resp) := by
  have hc : (roundTrip env method url body hdr logged accepted context decode pick).calls =
      [⟨method, url, hdr, body⟩] := by
    rw [roundTrip_calls, if_pos h.1]
  exact ⟨hc, roundTrip_result _ _ _ _ _ _ _ _ _ _ resp ⟨_, hc, h.2⟩⟩

theorem campaigns_list_eq (env : Env) (cs : CampaignsService) :
    CampaignsService.List env cs =
      roundTrip env "GET" (cs.client.BaseURL ++ "/campaigns") none cs.client.headers []
        (fun s => s == 200) "failed to decode campaigns list: "
        (Decode env "listCampaignsResponse" (fun j _ => listCampaignsResponse.unmarshal {} j))
        (fun a => a.Campaigns) := by
  unfold CampaignsService.List roundTrip Env.NewRequest
  dsimp only
  cases env.newRequestError "GET" (cs.client.BaseURL ++ "/campaigns") with
  | some e => rfl
  | none =>
    dsimp only
    cases env.Do ⟨"GET", cs.client.BaseURL ++ "/campaigns", cs.client.headers, none⟩ with
    | error e => rfl
    | ok resp =>
      dsimp only
      by_cases hs : resp.StatusCode = 200
      · simp only [hs, ne_eq, not_true_eq_false, ↓reduceIte, beq_self_eq_true]
        cases Decode env "listCampaignsResponse"
          (fun j _ => listCampaignsResponse.unmarshal {} j) resp.Body <;> rfl
      · simp [hs]

theorem campaigns_retrieve_eq (env : Env) (cs : CampaignsService) (id : String) :
    CampaignsService.Retrieve env cs id =
      roundTrip env "GET" (cs.client.BaseURL ++ "/campaigns/" ++ TrimSpace id) none
        cs.client.headers [] (fun s => s == 200) "failed to decode single campaign: "
        (Decode env "singleCampaignResponse" (fun j _ => singleCampaignResponse.unmarshal {} j))
        (fun a => a.Campaign) := by
  unfold CampaignsService.Retrieve roundTrip Env.NewRequest
  dsimp only
  cases env.newRequestError "GET" (cs.client.BaseURL ++ "/campaigns/" ++ TrimSpace id) with
  | some e => rfl
  | none =>
    dsimp only
    cases env.Do ⟨"GET", cs.client.BaseURL ++ "/campaigns/" ++ TrimSpace id,
      cs.client.headers, none⟩ with
    | error e => rfl
    | ok resp =>
      dsimp only
      by_cases hs : resp.StatusCode = 200
      · simp only [hs, ne_eq, not_true_eq_false, ↓reduceIte, beq_self_eq_true]
        cases Decode env "singleCampaignResponse"
          (fun j _ => singleCampaignResponse.unmarshal {} j) resp.Body <;> rfl
      · simp [hs]

theorem orders_list_eq (env : Env) (s : OrdersService) :
    OrdersService.List env s =
      roundTrip env "GET" (s.client.BaseURL ++ "/orders") none s.client.headers []
        (fun c => c == 200) "failed to decode orders list: "
        (Decode env "listOrdersResponse" (fun _ text => env.unmarshalListOrders text))
        (fun a => a.Orders) := by
  unfold OrdersService.List roundTrip Env.NewRequest
  dsimp only
  cases env.newRequestError "GET" (s.client.BaseURL ++ "/orders") with
  | some e => rfl
  | none =>
    dsimp only
    cases env.Do ⟨"GET", s.client.BaseURL ++ "/orders", s.client.headers, none⟩ with
    | error e => rfl
    | ok resp =>
      dsimp only
      by_cases hs : resp.StatusCode = 200
      · simp only [hs, ne_eq, not_true_eq_false, ↓reduceIte, beq_self_eq_true]
        cases Decode env "listOrdersResponse"
          (fun _ text => env.unmarshalListOrders text) resp.Body <;> rfl
      · simp [hs]

theorem orders_retrieve_eq (env : Env) (s : OrdersService) (id : String) :
    OrdersService.Retrieve env s id =
      roundTrip env "GET" (s.client.BaseURL ++ "/orders/" ++ TrimSpace id) none
        s.client.headers [] (fun c => c == 200) "failed to decode single order: "
        (Decode env "singleOrderResponse" (fun _ text => env.unmarshalSingleOrder text))
        (fun a => a.Order) := by
  unfold OrdersService.Retrieve roundTrip Env.NewRequest
  dsimp only
  cases env.newRequestError "GET" (s.client.BaseURL ++ "/orders/" ++ TrimSpace id) with
  | some e => rfl
  | none =>
    dsimp only
    cases env.Do ⟨"GET", s.client.BaseURL ++ "/orders/" ++ TrimSpace id,
      s.client.headers, none⟩ with
    | error e => rfl
    | ok resp =>
      dsimp only
      by_cases hs : resp.StatusCode = 200
      · simp only [hs, ne_eq, not_true_eq_false, ↓reduceIte, beq_self_eq_true]
        cases Decode env "singleOrderResponse"
          (fun _ text => env.unmarshalSingleOrder text) resp.Body <;> rfl
      · simp [hs]

theorem products_list_eq (env : Env) (ps : ProductsService)
    (opts : Option ListProductsOptions) :
    ProductsService.List env ps opts =
      roundTrip env "GET" (ps.listURL opts) none ps.client.headers []
        (fun c => c == 200) "failed to decode products list: "
        (Decode env "listProductsResponse" (fun _ text => env.unmarshalListProducts text))
        (fun a => a.Products) := by
  unfold ProductsService.List roundTrip Env.NewRequest
  dsimp only
  cases env.newRequestError "GET" (ps.listURL opts) with
  | some e => rfl
  | none =>
    dsimp only
    cases env.Do ⟨"GET", ps.listURL opts, ps.client.headers, none⟩ with
    | error e => rfl
    | ok resp =>
      dsimp only
      by_cases hs : resp.StatusCode = 200
      · simp only [hs, ne_eq, not_true_eq_false, ↓reduceIte, beq_self_eq_true]
        cases Decode env "listProductsResponse"
          (fun _ text => env.unmarshalListProducts text) resp.Body <;> rfl
      · simp [hs]

theorem products_retrieve_eq (env : Env) (ps : ProductsService) (id : String) :
    ProductsService.Retrieve env ps id =
      roundTrip env "GET" (ps.client.BaseURL ++ "/products/" ++ TrimSpace id) none
        ps.client.headers [] (fun c => c == 200) "failed to decode single product: "
        (Decode env "singleProductResponse" (fun _ text => env.unmarshalSingleProduct text))
        (fun a => a.Product) := by
  unfold ProductsService.Retrieve roundTrip Env.NewRequest
  dsimp only
  cases env.newRequestError "GET" (ps.client.BaseURL ++ "/products/" ++ TrimSpace id) with
  | some e => rfl
  | none =>
    dsimp only
    cases env.Do ⟨"GET", ps.client.BaseURL ++ "/products/" ++ TrimSpace id,
      ps.client.headers, none⟩ with
    | error e => rfl
    | ok resp =>
      dsimp only
      by_cases hs : resp.StatusCode = 200
      · simp only [hs, ne_eq, not_true_eq_false, ↓reduceIte, beq_self_eq_true]
        cases Decode env "singleProductResponse"
          (fun _ text => env.unmarshalSingleProduct text) resp.Body <;> rfl
      · simp [hs]

/-- The status test of the two `Create` operations. -/
theorem created_or_ok (c : Int) :
    (c ≠ 201 ∧ c ≠ 200) ↔ ¬ ((c == 201 || c == 200) = true) := by
  simp

theorem orders_create_eq (env : Env) (s : OrdersService) (args : OrderArgs) :
    OrdersService.Create env s args =
      if args.Payment.FundingSourceID = "" then ⟨[], [], .error fundingSourceRequired⟩
      else match args.toJSON env.formatFloat with
        | .error err => ⟨[], [], .error ("failed to marshal CreateOrderArgs: " ++ err)⟩
        | .ok j =>
          roundTrip env "POST" (s.client.BaseURL ++ "/orders") (some j.text) s.client.headers
            ["Request " ++ j.text] (fun c => c == 201 || c == 200)
            "failed to decode create order response: "
            (Decode env "singleOrderResponse" (fun _ text => env.unmarshalSingleOrder text))
            (fun a => a.Order) := by
  unfold OrdersService.Create
  dsimp only
  split
  · rfl
  · unfold Marshal
    cases args.toJSON env.formatFloat with
    | error e => rfl
    | ok j =>
      dsimp only
      unfold roundTrip Env.NewRequest
      cases env.newRequestError "POST" (s.client.BaseURL ++ "/orders") with
      | some e => rfl
      | none =>
        dsimp only
        cases env.Do ⟨"POST", s.client.BaseURL ++ "/orders", s.client.headers, some j.text⟩ with
        | error e => rfl
        | ok resp =>
          dsimp only
          by_cases hs : (resp.StatusCode == 201 || resp.StatusCode == 200) = true
          · have hn : ¬ (resp.StatusCode ≠ 201 ∧ resp.StatusCode ≠ 200) := by
              rw [created_or_ok]; exact fun h => h hs
            rw [if_neg hn, if_pos hs]
            cases Decode env "singleOrderResponse"
              (fun _ text => env.unmarshalSingleOrder text) resp.Body <;> rfl
          · have hn : resp.StatusCode ≠ 201 ∧ resp.StatusCode ≠ 200 := by
              rw [created_or_ok]; exact hs
            rw [if_pos hn, if_neg hs]

theorem products_create_eq (env : Env) (ps : ProductsService) (args : CreateProductArgs) :
    ProductsService.Create env ps args =
      match args.toJSON env.formatFloat with
      | .error err => ⟨[], [], .error ("failed to marshal CreateProductArgs: " ++ err)⟩
      | .ok j =>
        roundTrip env "POST" (ps.client.BaseURL ++ "/products") (some j.text) ps.client.headers
          [] (fun c => c == 201 || c == 200)
          "failed to decode create product response: "
          (Decode env "singleProductResponse" (fun _ text => env.unmarshalSingleProduct text))
          (fun a => a.Product) := by
  unfold ProductsService.Create Marshal
  dsimp only
  cases args.toJSON env.formatFloat with
  | error e => rfl
  | ok j =>
    dsimp only
    unfold roundTrip Env.NewRequest
    cases env.newRequestError "POST" (ps.client.BaseURL ++ "/products") with
    | some e => rfl
    | none =>
      dsimp only
      cases env.Do ⟨"POST", ps.client.BaseURL ++ "/products", ps.client.headers, some j.text⟩ with
      | error e => rfl
      | ok resp =>
        dsimp only
        by_cases hs : (resp.StatusCode == 201 || resp.StatusCode == 200) = true
        · have hn : ¬ (resp.StatusCode ≠ 201 ∧ resp.StatusCode ≠ 200) := by
            rw [created_or_ok]; exact fun h => h hs
          rw [if_neg hn, if_pos hs]
          cases Decode env "singleProductResponse"
            (fun _ text => env.unmarshalSingleProduct text) resp.Body <;> rfl
        · have hn : resp.StatusCode ≠ 201 ∧ resp.StatusCode ≠ 200 := by
            rw [created_or_ok]; exact hs
          rw [if_pos hn, if_neg hs]


/-! ### Error texts -/

theorem unexpectedStatus_data (resp : Response) :
    (unexpectedStatus resp).data =
      "unexpected status code ".data ++ ((formatInt resp.StatusCode).data ++
        (": ".data ++ resp.Body.data)) := by
  simp [unexpectedStatus, String.data_append, List.append_assoc]

theorem unexpectedStatus_contains (resp : Response) :
    Contains (unexpectedStatus resp) (formatInt resp.StatusCode) ∧
    Contains (unexpectedStatus resp) resp.Body := by
  unfold Contains
  rw [unexpectedStatus_data]
  refine ⟨⟨"unexpected status code ".data, ": ".data ++ resp.Body.data, ?_⟩,
    ⟨"unexpected status code ".data ++ ((formatInt resp.StatusCode).data ++ ": ".data), [], ?_⟩⟩
  · simp [List.append_assoc]
  · simp [List.append_assoc]

/-- Two texts that begin with different characters differ, whatever follows. -/
theorem append_ne_of_head {a b x y : String} {ca cb : Char}
    (ha : a.data.head? = some ca) (hb : b.data.head? = some cb) (h : ca ≠ cb) :
    a ++ x ≠ b ++ y := by
  intro he
  have hd := congrArg String.data he
  simp only [String.data_append] at hd
  have h1 : (a.data ++ x.data).head? = some ca := by
    cases hda : a.data with
    | nil => rw [hda] at ha; cases ha
    | cons c t => rw [hda] at ha; simpa using ha
  have h2 : (b.data ++ y.data).head? = some cb := by
    cases hdb : b.data with
    | nil => rw [hdb] at hb; cases hb
    | cons c t => rw [hdb] at hb; simpa using hb
  rw [hd, h2] at h1
  exact h (Option.some.inj h1).symm

/-- A text behind a context that begins with `f` is no unexpected-status error. -/
theorem context_ne_unexpectedStatus (context err : String) (resp : Response)
    (h : context.data.head? = some 'f') : context ++ err ≠ unexpectedStatus resp := by
  have hu : unexpectedStatus resp =
      "unexpected status code " ++ (formatInt resp.StatusCode ++ ": " ++ resp.Body) := by
    apply String.ext
    simp [unexpectedStatus, String.data_append, List.append_assoc]
  rw [hu]
  exact append_ne_of_head h (by rfl) (by decide)

theorem decoded_ne_unexpectedStatus {α β : Type} (context : String) (r : Except String α)
    (pick : α → β) (resp : Response) (h : context.data.head? = some 'f') :
    decoded context r pick ≠ .error (unexpectedStatus resp) := by
  cases r with
  | ok v => simp [decoded]
  | error e =>
    simp only [decoded, ne_eq, Except.error.injEq]
    exact context_ne_unexpectedStatus context e resp h

/-! ### C4 -/

/-- C4: for each of the `List` and `Retrieve` operations of the Campaigns,
Orders and Products services, whenever `http.NewRequest` accepts the
operation's URL and the network answers its request with a response whose
status is not 200, the operation sends that one request and returns no result
and the error "unexpected status code <s>: <b>", which holds the decimal
rendering of the status and the whole body; a 500 response with body
"internal error" makes `Orders.Retrieve("X")` fail with "unexpected status
code 500: internal error". -/
theorem list_retrieve_unexpected_status (env : Env) (resp : Response)
    (hs : resp.StatusCode ≠ 200) :
    (∀ cs : CampaignsService,
      env.Answers ⟨"GET", cs.client.BaseURL ++ "/campaigns", cs.client.headers, none⟩ resp →
      (CampaignsService.List env cs).calls =
        [⟨"GET", cs.client.BaseURL ++ "/campaigns", cs.client.headers, none⟩] ∧
      (CampaignsService.List env cs).result = .error (unexpectedStatus resp)) ∧
    (∀ (cs : CampaignsService) (id : String),
      env.Answers ⟨"GET", cs.client.BaseURL ++ "/campaigns/" ++ TrimSpace id,
        cs.client.headers, none⟩ resp →
      (CampaignsService.Retrieve env cs id).calls =
        [⟨"GET", cs.client.BaseURL ++ "/campaigns/" ++ TrimSpace id, cs.client.headers, none⟩] ∧
      (CampaignsService.Retrieve env cs id).result = .error (unexpectedStatus resp)) ∧
    (∀ s : OrdersService,
      env.Answers ⟨"GET", s.client.BaseURL ++ "/orders", s.client.headers, none⟩ resp →
      (OrdersService.List env s).calls =
        [⟨"GET", s.client.BaseURL ++ "/orders", s.client.headers, none⟩] ∧
      (OrdersService.List env s).result = .error (unexpectedStatus resp)) ∧
    (∀ (s : OrdersService) (id : String),
      env.Answers ⟨"GET", s.client.BaseURL ++ "/orders/" ++ TrimSpace id,
        s.client.headers, none⟩ resp →
      (OrdersService.Retrieve env s id).calls =
        [⟨"GET", s.client.BaseURL ++ "/orders/" ++ TrimSpace id, s.client.headers, none⟩] ∧
      (OrdersService.Retrieve env s id).result = .error (unexpectedStatus resp)) ∧
    (∀ (ps : ProductsService) (opts : Option ListProductsOptions),
      env.Answers ⟨"GET", ps.listURL opts, ps.client.headers, none⟩ resp →
      (ProductsService.List env ps opts).calls =
        [⟨"GET", ps.listURL opts, ps.client.headers, none⟩] ∧
      (ProductsService.List env ps opts).result = .error (unexpectedStatus resp)) ∧
    (∀ (ps : ProductsService) (id : String),
      env.Answers ⟨"GET", ps.client.BaseURL ++ "/products/" ++ TrimSpace id,
        ps.client.headers, none⟩ resp →
      (ProductsService.Retrieve env ps id).calls =
        [⟨"GET", ps.client.BaseURL ++ "/products/" ++ TrimSpace id, ps.client.headers, none⟩] ∧
      (ProductsService.Retrieve env ps id).result = .error (unexpectedStatus resp)) ∧
    unexpectedStatus resp =
      "unexpected status code " ++ formatInt resp.StatusCode ++ ": " ++ resp.Body ∧
    Contains (unexpectedStatus resp) (formatInt resp.StatusCode) ∧
    Contains (unexpectedStatus resp) resp.Body ∧
    (∀ s : OrdersService,
      (OrdersService.Retrieve (Env.answering ⟨500, "internal error"⟩) s "X").calls =
        [⟨"GET", s.client.BaseURL ++ "/orders/X", s.client.headers, none⟩] ∧
      (OrdersService.Retrieve (Env.answering ⟨500, "internal error"⟩) s "X").result =
        .error "unexpected status code 500: internal error") ∧
    Contains "unexpected status code 500: internal error" "500" ∧
    Contains "unexpected status code 500: internal error" "internal error" := by
  have hb : ((resp.StatusCode == 200) = true) = False := by simpa using hs
  refine ⟨?_, ?_, ?_, ?_, ?_, ?_, rfl, (unexpectedStatus_contains resp).1,
    (unexpectedStatus_contains resp).2, ?_, by decide, by decide⟩
  · intro cs h
    rw [campaigns_list_eq]
    have := roundTrip_answers env _ _ _ _ [] (fun s => s == 200)
      "failed to decode campaigns list: "
      (Decode env "listCampaignsResponse" (fun j _ => listCampaignsResponse.unmarshal {} j))
      (fun a => a.Campaigns) resp h
    simpa only [hb, if_false] using this
  · intro cs id h
    rw [campaigns_retrieve_eq]
    have := roundTrip_answers env _ _ _ _ [] (fun s => s == 200)
      "failed to decode single campaign: "
      (Decode env "singleCampaignResponse" (fun j _ => singleCampaignResponse.unmarshal {} j))
      (fun a => a.Campaign) resp h
    simpa only [hb, if_false] using this
  · intro s h
    rw [orders_list_eq]
    have := roundTrip_answers env _ _ _ _ [] (fun c => c == 200)
      "failed to decode orders list: "
      (Decode env "listOrdersResponse" (fun _ text => env.unmarshalListOrders text))
      (fun a => a.Orders) resp h
    simpa only [hb, if_false] using this
  · intro s id h
    rw [orders_retrieve_eq]
    have := roundTrip_answers env _ _ _ _ [] (fun c => c == 200)
      "failed to decode single order: "
      (Decode env "singleOrderResponse" (fun _ text => env.unmarshalSingleOrder text))
      (fun a => a.Order) resp h
    simpa only [hb, if_false] using this
  · intro ps opts h
    rw [products_list_eq]
    have := roundTrip_answers env _ _ _ _ [] (fun c => c == 200)
      "failed to decode products list: "
      (Decode env "listProductsResponse" (fun _ text => env.unmarshalListProducts text))
      (fun a => a.Products) resp h
    simpa only [hb, if_false] using this
  · intro ps id h
    rw [products_retrieve_eq]
    have := roundTrip_answers env _ _ _ _ [] (fun c => c == 200)
      "failed to decode single product: "
      (Decode env "singleProductResponse" (fun _ text => env.unmarshalSingleProduct text))
      (fun a => a.Product) resp h
    simpa only [hb, if_false] using this
  · intro s
    have ht : TrimSpace "X" = "X" := by decide
    have hu : s.client.BaseURL ++ "/orders/" ++ "X" = s.client.BaseURL ++ "/orders/X" := by
      rw [String.append_assoc]; rfl
    rw [orders_retrieve_eq, ht, hu]
    exact ⟨rfl, rfl⟩

/-- C4, at instances: each of the six operations on the testflight client,
with a network answering 500 and the body "internal error". -/
theorem list_retrieve_unexpected_status_witness :
    (⟨500, "internal error"⟩ : Response).StatusCode ≠ 200 ∧
    (CampaignsService.List (Env.answering ⟨500, "internal error"⟩) testClient.Campaigns).result =
      .error "unexpected status code 500: internal error" ∧
    (CampaignsService.Retrieve (Env.answering ⟨500, "internal error"⟩) testClient.Campaigns
      " C1 ").result = .error "unexpected status code 500: internal error" ∧
    (OrdersService.List (Env.answering ⟨500, "internal error"⟩) testClient.Orders).result =
      .error "unexpected status code 500: internal error" ∧
    (OrdersService.Retrieve (Env.answering ⟨500, "internal error"⟩) testClient.Orders
      "X").result = .error "unexpected status code 500: internal error" ∧
    (ProductsService.List (Env.answering ⟨500, "internal error"⟩) testClient.Products
      (some ⟨"US"⟩)).result = .error "unexpected status code 500: internal error" ∧
    (ProductsService.Retrieve (Env.answering ⟨500, "internal error"⟩) testClient.Products
      "P1").result = .error "unexpected status code 500: internal error" :=
  have h := list_retrieve_unexpected_status (Env.answering ⟨500, "internal error"⟩)
    ⟨500, "internal error"⟩ (by decide)
  ⟨by decide,
    (h.1 testClient.Campaigns ⟨rfl, rfl⟩).2,
    (h.2.1 testClient.Campaigns " C1 " ⟨rfl, rfl⟩).2,
    (h.2.2.1 testClient.Orders ⟨rfl, rfl⟩).2,
    (h.2.2.2.1 testClient.Orders "X" ⟨rfl, rfl⟩).2,
    (h.2.2.2.2.1 testClient.Products (some ⟨"US"⟩) ⟨rfl, rfl⟩).2,
    (h.2.2.2.2.2.1 testClient.Products "P1" ⟨rfl, rfl⟩).2⟩


/-! ### C5 -/

/-- C5: whenever `http.NewRequest` accepts the URL and the network answers the
request of `Orders.Create` (called with a non-empty funding-source identifier
and a body that marshals) or of `Products.Create` (with a body that marshals)
with a response of status `s`, the operation sends that one POST request and
returns the unexpected-status error exactly when `s` is neither 200 nor 201;
for 200 and 201 its result is that of decoding the body, and for every other
status, 202 and 204 included, it returns no result and the error that carries
`s` and the body. -/
theorem create_status_classes (env : Env) (resp : Response) :
    (∀ (s : OrdersService) (args : OrderArgs) (j : JSON),
      args.Payment.FundingSourceID ≠ "" → args.toJSON env.formatFloat = .ok j →
      env.Answers ⟨"POST", s.client.BaseURL ++ "/orders", s.client.headers, some j.text⟩ resp →
      (OrdersService.Create env s args).calls =
        [⟨"POST", s.client.BaseURL ++ "/orders", s.client.headers, some j.text⟩] ∧
      (((OrdersService.Create env s args).result = .error (unexpectedStatus resp)) ↔
        (resp.StatusCode ≠ 200 ∧ resp.StatusCode ≠ 201)) ∧
      (resp.StatusCode = 200 ∨ resp.StatusCode = 201 →
        (OrdersService.Create env s args).result =
          decoded "failed to decode create order response: "
            (Decode env "singleOrderResponse" (fun _ text => env.unmarshalSingleOrder text)
              resp.Body) (fun a => a.Order))) ∧
    (∀ (ps : ProductsService) (args : CreateProductArgs) (j : JSON),
      args.toJSON env.formatFloat = .ok j →
      env.Answers ⟨"POST", ps.client.BaseURL ++ "/products", ps.client.headers,
        some j.text⟩ resp →
      (ProductsService.Create env ps args).calls =
        [⟨"POST", ps.client.BaseURL ++ "/products", ps.client.headers, some j.text⟩] ∧
      (((ProductsService.Create env ps args).result = .error (unexpectedStatus resp)) ↔
        (resp.StatusCode ≠ 200 ∧ resp.StatusCode ≠ 201)) ∧
      (resp.StatusCode = 200 ∨ resp.StatusCode = 201 →
        (ProductsService.Create env ps args).result =
          decoded "failed to decode create product response: "
            (Decode env "singleProductResponse" (fun _ text => env.unmarshalSingleProduct text)
              resp.Body) (fun a => a.Product))) ∧
    Contains (unexpectedStatus resp) (formatInt resp.StatusCode) ∧
    Contains (unexpectedStatus resp) resp.Body := by
  have key : ∀ {α β : Type} (o : Outcome β) (context : String)
      (r : Except String α) (pick : α → β), context.data.head? = some 'f' →
      o.result = (if (resp.StatusCode == 201 || resp.StatusCode == 200) = true
        then decoded context r pick else .error (unexpectedStatus resp)) →
      ((o.result = .error (unexpectedStatus resp)) ↔
        (resp.StatusCode ≠ 200 ∧ resp.StatusCode ≠ 201)) ∧
      (resp.StatusCode = 200 ∨ resp.StatusCode = 201 → o.result = decoded context r pick) := by
    intro α β o context r pick hf ho
    by_cases hs : (resp.StatusCode == 201 || resp.StatusCode == 200) = true
    · rw [if_pos hs] at ho
      have hs' : resp.StatusCode = 201 ∨ resp.StatusCode = 200 := by simpa using hs
      refine ⟨⟨fun h => ?_, fun h => ?_⟩, fun _ => ho⟩
      · rw [ho] at h
        exact absurd h (decoded_ne_unexpectedStatus context r pick resp hf)
      · rcases hs' with h1 | h1
        · exact absurd h1 h.2
        · exact absurd h1 h.1
    · rw [if_neg hs] at ho
      have hs' : ¬ (resp.StatusCode = 201 ∨ resp.StatusCode = 200) := by simpa using hs
      refine ⟨⟨fun _ => ⟨fun h => hs' (Or.inr h), fun h => hs' (Or.inl h)⟩, fun _ => ho⟩,
        fun h => ?_⟩
      rcases h with h | h
      · exact absurd (Or.inr h) hs'
      · exact absurd (Or.inl h) hs'
  refine ⟨?_, ?_, (unexpectedStatus_contains resp).1, (unexpectedStatus_contains resp).2⟩
  · intro s args j hfs hj h
    rw [orders_create_eq, if_neg hfs, hj]
    dsimp only
    have := roundTrip_answers env _ _ _ _ ["Request " ++ j.text]
      (fun c => c == 201 || c == 200) "failed to decode create order response: "
      (Decode env "singleOrderResponse" (fun _ text => env.unmarshalSingleOrder text))
      (fun a => a.Order) resp h
    exact ⟨this.1, key _ _ _ _ (by rfl) this.2⟩
  · intro ps args j hj h
    rw [products_create_eq, hj]
    dsimp only
    have := roundTrip_answers env _ _ _ _ []
      (fun c => c == 201 || c == 200) "failed to decode create product response: "
      (Decode env "singleProductResponse" (fun _ text => env.unmarshalSingleProduct text))
      (fun a => a.Product) resp h
    exact ⟨this.1, key _ _ _ _ (by rfl) this.2⟩

/-- C5, at instances: the order of the example program and a product to
create, each answered with status 202 and refused with the unexpected-status
error, and each answered with status 201 and a body that is no JSON, which is
passed to the decoder. -/
theorem create_status_classes_witness :
    (OrdersService.Create (Env.answering ⟨202, "accepted"⟩) testClient.Orders
      exampleOrder).result = .error "unexpected status code 202: accepted" ∧
    (ProductsService.Create (Env.answering ⟨202, "accepted"⟩) testClient.Products
      exampleProduct).result = .error "unexpected status code 202: accepted" ∧
    (OrdersService.Create (Env.answering ⟨201, "created"⟩) testClient.Orders
      exampleOrder).result = .error "failed to decode create order response: invalid" ∧
    (ProductsService.Create (Env.answering ⟨201, "created"⟩) testClient.Products
      exampleProduct).result = .error "failed to decode create product response: invalid" :=
  ⟨((create_status_classes (Env.answering ⟨202, "accepted"⟩) ⟨202, "accepted"⟩).1
      testClient.Orders exampleOrder _ (by decide) rfl ⟨rfl, rfl⟩).2.1.2 ⟨by decide, by decide⟩,
   ((create_status_classes (Env.answering ⟨202, "accepted"⟩) ⟨202, "accepted"⟩).2.1
      testClient.Products exampleProduct _ rfl ⟨rfl, rfl⟩).2.1.2 ⟨by decide, by decide⟩,
   ((create_status_classes (Env.answering ⟨201, "created"⟩) ⟨201, "created"⟩).1
      testClient.Orders exampleOrder _ (by decide) rfl ⟨rfl, rfl⟩).2.2 (Or.inr rfl),
   ((create_status_classes (Env.answering ⟨201, "created"⟩) ⟨201, "created"⟩).2.1
      testClient.Products exampleProduct _ rfl ⟨rfl, rfl⟩).2.2 (Or.inr rfl)⟩

/-! ### C6 -/

theorem QueryEscape_ne_empty_append (a b : String) (h : a ≠ "") : a ++ b ≠ "" := by
  intro he
  apply h
  have hd := congrArg String.data he
  simp only [String.data_append] at hd
  apply String.ext
  have : a.data = [] := (List.append_eq_nil.mp hd).1
  simpa using this

theorem encode_country (c : String) :
    Values.Encode (Values.Set [] "country" c) = "country=" ++ QueryEscape c := by
  have hq : QueryEscape "country" = "country" := by decide
  simp [Values.Encode, Values.Set, Header.assign, sortByKey, insertByKey, encodePairs, hq,
    String.intercalate, String.intercalate.go]

/-! #### url.QueryEscape -/

theorem hexDigit_upperHexDigit : ∀ n < 16, hexDigit (upperHexDigit n) = some n ∧
    isUnreserved (upperHexDigit n) = true := by decide

set_option maxRecDepth 20000 in
theorem plain_byte : ∀ b < 128, shouldEscape b = false →
    isUnreserved (Char.ofNat b) = true ∧ utf8Bytes (Char.ofNat b) = [b] ∧
    Char.ofNat b ≠ '%' ∧ Char.ofNat b ≠ '+' := by decide

theorem shouldEscape_of_ge (b : Nat) (h : 128 ≤ b) : shouldEscape b = true := by
  simp only [shouldEscape, Bool.not_eq_true', Bool.or_eq_false_iff, Bool.and_eq_false_imp,
    decide_eq_true_eq, decide_eq_false_iff_not, beq_eq_false_iff_ne]
  omega

theorem utf8Bytes_lt (c : Char) : ∀ b ∈ utf8Bytes c, b < 256 := by
  have hv : c.toNat < 0x110000 := by
    have := c.valid
    simp only [UInt32.isValidChar, Nat.isValidChar] at this
    show c.val.toNat < 0x110000
    omega
  intro b hb
  unfold utf8Bytes at hb
  dsimp only at hb
  split_ifs at hb <;> simp at hb <;> omega

theorem queryUnescapeBytes_plus (rest : List Char) :
    queryUnescapeBytes ('+' :: rest) = (queryUnescapeBytes rest).map (fun t => 32 :: t) := by
  rcases rest with _ | ⟨a, _ | ⟨b, rest2⟩⟩ <;> simp [queryUnescapeBytes]

theorem queryUnescapeBytes_percent (a b : Char) (x y : Nat) (rest : List Char)
    (hx : hexDigit a = some x) (hy : hexDigit b = some y) :
    queryUnescapeBytes ('%' :: a :: b :: rest) =
      (queryUnescapeBytes rest).map (fun t => (x * 16 + y) :: t) := by
  simp only [queryUnescapeBytes, if_true, hx, hy]
  cases queryUnescapeBytes rest <;> rfl

theorem queryUnescapeBytes_plain (c : Char) (rest : List Char) (h1 : c ≠ '%') (h2 : c ≠ '+') :
    queryUnescapeBytes (c :: rest) =
      (queryUnescapeBytes rest).map (fun t => utf8Bytes c ++ t) := by
  rcases rest with _ | ⟨a, _ | ⟨b, rest2⟩⟩ <;> simp [queryUnescapeBytes, h1, h2]

/-- Unescaping undoes the escaping of one byte. -/
theorem queryUnescapeBytes_escapeByte (b : Nat) (hb : b < 256) (rest : List Char) :
    queryUnescapeBytes (escapeByte b ++ rest) =
      (queryUnescapeBytes rest).map (fun t => b :: t) := by
  unfold escapeByte
  split_ifs with h1 h2
  · subst h1
    exact queryUnescapeBytes_plus rest
  · have hx := hexDigit_upperHexDigit (b / 16) (by omega)
    have hy := hexDigit_upperHexDigit (b % 16) (Nat.mod_lt _ (by decide))
    have := queryUnescapeBytes_percent _ _ _ _ rest hx.1 hy.1
    rw [Nat.div_add_mod' b 16] at this
    exact this
  · have hlt : b < 128 := by
      by_contra hge
      exact h2 (shouldEscape_of_ge b (by omega))
    have hp := plain_byte b hlt (by simpa using h2)
    have := queryUnescapeBytes_plain (Char.ofNat b) rest hp.2.2.1 hp.2.2.2
    rw [hp.2.1] at this
    exact this

theorem queryUnescapeBytes_escaped (bs : List Nat) (h : ∀ b ∈ bs, b < 256) :
    queryUnescapeBytes (bs.flatMap escapeByte) = some bs := by
  induction bs with
  | nil => rfl
  | cons b bs ih =>
    rw [List.flatMap_cons, queryUnescapeBytes_escapeByte b (h b (by simp)),
      ih (fun x hx => h x (by simp [hx]))]
    rfl

/-- `QueryUnescape` reads `QueryEscape` back: the bytes of the text. -/
theorem queryUnescape_QueryEscape (s : String) :
    queryUnescapeBytes (QueryEscape s).data = some (s.data.flatMap utf8Bytes) := by
  unfold QueryEscape
  apply queryUnescapeBytes_escaped
  intro b hb
  rw [List.mem_flatMap] at hb
  obtain ⟨c, _, hc⟩ := hb
  exact utf8Bytes_lt c b hc

/-- The escaped text is made of unreserved characters, `+` and `%` only. -/
theorem QueryEscape_alphabet (s : String) :
    ∀ x ∈ (QueryEscape s).data, isUnreserved x = true ∨ x = '+' ∨ x = '%' := by
  intro x hx
  unfold QueryEscape at hx
  rw [List.mem_flatMap] at hx
  obtain ⟨b, hb, hxb⟩ := hx
  rw [List.mem_flatMap] at hb
  obtain ⟨c, _, hc⟩ := hb
  have hlt := utf8Bytes_lt c b hc
  unfold escapeByte at hxb
  split_ifs at hxb with h1 h2
  · simp only [List.mem_singleton] at hxb
    exact Or.inr (Or.inl hxb)
  · simp only [List.mem_cons, List.mem_singleton, List.not_mem_nil, or_false] at hxb
    rcases hxb with h | h | h
    · exact Or.inr (Or.inr h)
    · rw [h]; exact Or.inl (hexDigit_upperHexDigit _ (by omega)).2
    · rw [h]; exact Or.inl (hexDigit_upperHexDigit _ (Nat.mod_lt _ (by decide))).2
  · simp only [List.mem_singleton] at hxb
    have hlt : b < 128 := by
      by_contra hge
      exact h2 (shouldEscape_of_ge b (by omega))
    rw [hxb]
    exact Or.inl (plain_byte b hlt (by simpa using h2)).1


/-- C6: `Products.List` requests the URL `B + "/products"`, with no query string
and no `?`, when the options are nil or their country is empty, and the URL
`B + "/products?country=" + QueryEscape(c)` when the country is a non-empty
`c`. The request is a GET, and it is sent whenever `http.NewRequest` accepts
the URL. `QueryEscape(c)` is the URL query encoding of `c`: it is made of
unreserved characters, `+` and `%` only, so that the query holds the one
parameter, and `QueryUnescape` reads the UTF-8 bytes of `c` back from it; for
"US" the query string is "country=US", and for "a b&c=d/é" it is
"country=a+b%26c%3Dd%2F%C3%A9". -/
theorem products_list_url (env : Env) (ps : ProductsService)
    (opts : Option ListProductsOptions) :
    ps.listURL opts =
      (match opts with
       | none => ps.client.BaseURL ++ "/products"
       | some o =>
         if o.Country = "" then ps.client.BaseURL ++ "/products"
         else ps.client.BaseURL ++ "/products?" ++ ("country=" ++ QueryEscape o.Country)) ∧
    (ProductsService.List env ps opts).calls =
      (if env.newRequestError "GET" (ps.listURL opts) = none then
        [⟨"GET", ps.listURL opts, ps.client.headers, none⟩]
       else []) ∧
    QueryEscape "US" = "US" ∧
    ps.listURL (some ⟨"US"⟩) = ps.client.BaseURL ++ "/products?" ++ "country=US" ∧
    (∀ c : String, queryUnescapeBytes (QueryEscape c).data = some (c.data.flatMap utf8Bytes)) ∧
    (∀ (c : String) (x : Char), x ∈ (QueryEscape c).data →
      isUnreserved x = true ∨ x = '+' ∨ x = '%') ∧
    QueryEscape "a b&c=d/é" = "a+b%26c%3Dd%2F%C3%A9" ∧
    ps.listURL (some ⟨"a b&c=d/é"⟩) =
      ps.client.BaseURL ++ "/products?" ++ "country=a+b%26c%3Dd%2F%C3%A9" := by
  have hurl : ∀ o : Option ListProductsOptions, ps.listURL o =
      (match o with
       | none => ps.client.BaseURL ++ "/products"
       | some o =>
         if o.Country = "" then ps.client.BaseURL ++ "/products"
         else ps.client.BaseURL ++ "/products?" ++ ("country=" ++ QueryEscape o.Country)) := by
    intro o
    cases o with
    | none => rfl
    | some o =>
      unfold ProductsService.listURL
      dsimp only
      by_cases hc : o.Country = ""
      · have he : Values.Encode ([] : Values) = "" := by decide
        simp [hc, he]
      · have hne : "country=" ++ QueryEscape o.Country ≠ "" :=
          QueryEscape_ne_empty_append _ _ (by decide)
        simp only [ne_eq, hc, not_false_eq_true, ↓reduceIte, encode_country, hne]
        have : ps.client.BaseURL ++ "/products" ++ "?" = ps.client.BaseURL ++ "/products?" := by
          rw [String.append_assoc]; rfl
        rw [this]
  refine ⟨hurl opts, ?_, by decide, ?_, queryUnescape_QueryEscape, QueryEscape_alphabet,
    by decide, ?_⟩
  · rw [products_list_eq, roundTrip_calls]
  · rw [hurl]
    have : QueryEscape "US" = "US" := by decide
    simp [this]
  · rw [hurl]
    have h1 : QueryEscape "a b&c=d/é" = "a+b%26c%3Dd%2F%C3%A9" := by decide
    have h2 : ("a b&c=d/é" : String) ≠ "" := by decide
    have h3 : "country=" ++ "a+b%26c%3Dd%2F%C3%A9" = "country=a+b%26c%3Dd%2F%C3%A9" := by decide
    simp only [h1, h2, if_false, h3]

/-! ### C7 -/

theorem rdropWhile_append_all {α : Type} (p : α → Bool) (l w : List α)
    (hw : ∀ x ∈ w, p x = true) : List.rdropWhile p (l ++ w) = List.rdropWhile p l := by
  induction w using List.reverseRecOn with
  | nil => simp
  | append_singleton w x ih =>
    rw [← List.append_assoc, List.rdropWhile_concat_pos _ _ _ (hw x (by simp))]
    exact ih (fun y hy => hw y (by simp [hy]))

theorem trim_append_all (p : Char → Bool) (l w : List Char) (hw : ∀ x ∈ w, p x = true) :
    List.rdropWhile p (List.dropWhile p (l ++ w)) = List.rdropWhile p (List.dropWhile p l) := by
  induction l with
  | nil =>
    have h1 : List.dropWhile p w = [] := by
      rw [List.dropWhile_eq_nil_iff]; exact hw
    simp [h1]
  | cons c cs ih =>
    by_cases hc : p c = true
    · simp only [List.cons_append, List.dropWhile_cons_of_pos hc]
      exact ih
    · simp only [List.cons_append, List.dropWhile_cons_of_neg hc]
      rw [← List.cons_append]
      exact rdropWhile_append_all p (c :: cs) w hw

theorem dropWhile_rdropWhile_dropWhile (p : Char → Bool) (l : List Char) :
    List.dropWhile p (List.rdropWhile p (List.dropWhile p l)) =
      List.rdropWhile p (List.dropWhile p l) := by
  cases hm : List.dropWhile p l with
  | nil => simp
  | cons c cs =>
    have hc : ¬ p c = true := by
      have := List.dropWhile_eq_self_iff.mp
        (show List.dropWhile p (List.dropWhile p l) = List.dropWhile p l from
          List.dropWhile_idempotent p l)
      rw [hm] at this
      simpa using this (by simp)
    obtain ⟨t, ht⟩ := (List.rdropWhile_prefix p (l := c :: cs))
    cases hr : List.rdropWhile p (c :: cs) with
    | nil => simp
    | cons d ds =>
      rw [hr] at ht
      have hd : d = c := by
        simp only [List.cons_append, List.cons.injEq] at ht
        exact ht.1
      subst hd
      exact List.dropWhile_cons_of_neg hc

theorem TrimSpace_append (w1 id w2 : String) (h1 : w1.data.all isSpace = true)
    (h2 : w2.data.all isSpace = true) : TrimSpace (w1 ++ id ++ w2) = TrimSpace id := by
  unfold TrimSpace
  congr 1
  simp only [String.data_append, List.append_assoc]
  rw [List.dropWhile_append_of_pos (by simpa using h1)]
  exact trim_append_all isSpace id.data w2.data (by simpa using h2)

theorem TrimSpace_idempotent (id : String) : TrimSpace (TrimSpace id) = TrimSpace id := by
  unfold TrimSpace
  congr 1
  dsimp only
  rw [dropWhile_rdropWhile_dropWhile, List.rdropWhile_idempotent]

theorem rdropWhile_rtakeWhile (p : Char → Bool) (l : List Char) :
    List.rdropWhile p l ++ List.rtakeWhile p l = l := by
  unfold List.rdropWhile List.rtakeWhile
  rw [← List.reverse_append, List.takeWhile_append_dropWhile, List.reverse_reverse]

theorem TrimSpace_interior (id : String) :
    ∃ before after : List Char, id.data = before ++ (TrimSpace id).data ++ after ∧
      before.all isSpace = true ∧ after.all isSpace = true := by
  refine ⟨id.data.takeWhile isSpace, (id.data.dropWhile isSpace).rtakeWhile isSpace, ?_, ?_, ?_⟩
  · unfold TrimSpace
    dsimp only
    rw [List.append_assoc, rdropWhile_rtakeWhile, List.takeWhile_append_dropWhile]
  · rw [List.all_eq_true]
    intro x hx
    exact List.mem_takeWhile_imp hx
  · rw [List.all_eq_true]
    intro x hx
    exact List.mem_rtakeWhile_imp hx

theorem TrimSpace_ends (id : String) :
    (∀ c, (TrimSpace id).data.head? = some c → isSpace c = false) ∧
    (∀ c, (TrimSpace id).data.getLast? = some c → isSpace c = false) := by
  constructor
  · intro c hc
    have h := dropWhile_rdropWhile_dropWhile isSpace id.data
    have h2 := List.dropWhile_eq_self_iff.mp h
    unfold TrimSpace at hc
    dsimp only at hc
    cases ht : List.rdropWhile isSpace (List.dropWhile isSpace id.data) with
    | nil => rw [ht] at hc; cases hc
    | cons d ds =>
      rw [ht] at hc h2
      simp only [List.head?_cons, Option.some.injEq] at hc
      subst hc
      simpa using h2 (by simp)
  · intro c hc
    unfold TrimSpace at hc
    dsimp only at hc
    have hne : List.rdropWhile isSpace (List.dropWhile isSpace id.data) ≠ [] := by
      intro he; rw [he] at hc; cases hc
    have := List.rdropWhile_last_not isSpace (List.dropWhile isSpace id.data) hne
    rw [List.getLast?_eq_getLast _ hne] at hc
    simp only [Option.some.injEq] at hc
    rw [hc] at this
    simpa using this

/-- C7: the three `Retrieve` operations request the URL `B + "/campaigns/"`
(resp. "/orders/", "/products/") followed by the trimmed identifier, as a GET
sent whenever `http.NewRequest` accepts the URL. Trimming removes leading and
trailing white space only: the identifier is the trimmed text between two
runs of white space, and the trimmed text neither begins nor ends with white
space. Hence `Retrieve(w1 + id + w2)` behaves as `Retrieve(id)` for white
space `w1`, `w2`, and trimming twice is trimming once. -/
theorem retrieve_trimmed_url (env : Env) (id w1 w2 : String)
    (h1 : w1.data.all isSpace = true) (h2 : w2.data.all isSpace = true) :
    (∀ cs : CampaignsService, (CampaignsService.Retrieve env cs id).calls =
      (if env.newRequestError "GET" (cs.client.BaseURL ++ "/campaigns/" ++ TrimSpace id) = none
       then [⟨"GET", cs.client.BaseURL ++ "/campaigns/" ++ TrimSpace id, cs.client.headers, none⟩]
       else [])) ∧
    (∀ s : OrdersService, (OrdersService.Retrieve env s id).calls =
      (if env.newRequestError "GET" (s.client.BaseURL ++ "/orders/" ++ TrimSpace id) = none
       then [⟨"GET", s.client.BaseURL ++ "/orders/" ++ TrimSpace id, s.client.headers, none⟩]
       else [])) ∧
    (∀ ps : ProductsService, (ProductsService.Retrieve env ps id).calls =
      (if env.newRequestError "GET" (ps.client.BaseURL ++ "/products/" ++ TrimSpace id) = none
       then [⟨"GET", ps.client.BaseURL ++ "/products/" ++ TrimSpace id, ps.client.headers, none⟩]
       else [])) ∧
    (∃ before after : List Char, id.data = before ++ (TrimSpace id).data ++ after ∧
      before.all isSpace = true ∧ after.all isSpace = true) ∧
    (∀ c, (TrimSpace id).data.head? = some c → isSpace c = false) ∧
    (∀ c, (TrimSpace id).data.getLast? = some c → isSpace c = false) ∧
    TrimSpace (w1 ++ id ++ w2) = TrimSpace id ∧
    (∀ cs, CampaignsService.Retrieve env cs (w1 ++ id ++ w2) = CampaignsService.Retrieve env cs id) ∧
    (∀ s, OrdersService.Retrieve env s (w1 ++ id ++ w2) = OrdersService.Retrieve env s id) ∧
    (∀ ps, ProductsService.Retrieve env ps (w1 ++ id ++ w2) = ProductsService.Retrieve env ps id) ∧
    TrimSpace (TrimSpace id) = TrimSpace id := by
  have ht := TrimSpace_append w1 id w2 h1 h2
  refine ⟨?_, ?_, ?_, TrimSpace_interior id, (TrimSpace_ends id).1, (TrimSpace_ends id).2, ht,
    ?_, ?_, ?_, TrimSpace_idempotent id⟩
  · intro cs; rw [campaigns_retrieve_eq, roundTrip_calls]
  · intro s; rw [orders_retrieve_eq, roundTrip_calls]
  · intro ps; rw [products_retrieve_eq, roundTrip_calls]
  · intro cs; rw [campaigns_retrieve_eq, campaigns_retrieve_eq, ht]
  · intro s; rw [orders_retrieve_eq, orders_retrieve_eq, ht]
  · intro ps; rw [products_retrieve_eq, products_retrieve_eq, ht]

/-- C7, at an instance: the identifier "X y" between a space and a tab before
and a line feed after. -/
theorem retrieve_trimmed_url_witness :
    (" \t" : String).data.all isSpace = true ∧ ("\n" : String).data.all isSpace = true ∧
    TrimSpace (" \t" ++ "X y" ++ "\n") = TrimSpace "X y" ∧ TrimSpace "X y" = "X y" :=
  ⟨by decide, by decide,
    (retrieve_trimmed_url (Env.answering ⟨200, ""⟩) "X y" " \t" "\n"
      (by decide) (by decide)).2.2.2.2.2.2.1, by decide⟩


/-! ### C1 and C8 -/

theorem omitEmpty_one (k v : String) :
    omitEmpty [(k, v)] = if v = "" then [] else [(k, JSON.str v)] := by
  by_cases h : v = "" <;> simp [omitEmpty, h]

theorem omitEmpty_two (k1 v1 k2 v2 : String) :
    omitEmpty [(k1, v1), (k2, v2)] =
      (if v1 = "" then [] else [(k1, JSON.str v1)]) ++
      (if v2 = "" then [] else [(k2, JSON.str v2)]) := by
  by_cases h1 : v1 = "" <;> by_cases h2 : v2 = "" <;> simp [omitEmpty, h1, h2]

/-- The JSON form of an order: an error exactly for a denomination that is NaN
or infinite, and otherwise the object spelled out here. -/
theorem orderArgs_toJSON_eq (format : Float64 → String) (a : OrderArgs) :
    a.toJSON format =
      if (a.Reward.Value.Denomination.isInf || a.Reward.Value.Denomination.isNaN) = true then
        .error (unsupportedValue a.Reward.Value.Denomination)
      else .ok (.obj [
        ("campaign_id", match a.CampaignID with | none => .null | some id => .str id),
        ("external_id", match a.ExternalID with | none => .null | some id => .str id),
        ("payment", .obj (if a.Payment.FundingSourceID = "" then []
          else [("funding_source_id", .str a.Payment.FundingSourceID)])),
        ("reward", .obj [
          ("campaign_id", match a.Reward.CampaignID with | none => .null | some id => .str id),
          ("delivery", .obj [("method", .str a.Reward.Delivery.Method),
            ("status", .str a.Reward.Delivery.Status), ("link", .str a.Reward.Delivery.Link)]),
          ("products", match a.Reward.Products with
            | none => .null
            | some l => .arr (l.map JSON.str)),
          ("recipient", .obj (
            (if a.Reward.Recipient.Email = "" then []
              else [("email", JSON.str a.Reward.Recipient.Email)]) ++
            (if a.Reward.Recipient.Name = "" then []
              else [("name", JSON.str a.Reward.Recipient.Name)]))),
          ("value", .obj [("denomination", .num (format a.Reward.Value.Denomination)),
            ("currency_code", .str a.Reward.Value.CurrencyCode)])])]) := by
  unfold OrderArgs.toJSON RewardArg.toJSON OrderDenomination.toJSON encodeFloat
  by_cases h : (a.Reward.Value.Denomination.isInf || a.Reward.Value.Denomination.isNaN) = true
  · rw [if_pos h, if_pos h]
  · rw [if_neg h, if_neg h]
    dsimp only
    rw [show a.Payment.toJSON = JSON.obj (if a.Payment.FundingSourceID = "" then []
        else [("funding_source_id", .str a.Payment.FundingSourceID)]) from by
      unfold OrderPaymentArg.toJSON; rw [omitEmpty_one]]
    rw [show a.Reward.Recipient.toJSON = JSON.obj (
        (if a.Reward.Recipient.Email = "" then []
          else [("email", JSON.str a.Reward.Recipient.Email)]) ++
        (if a.Reward.Recipient.Name = "" then []
          else [("name", JSON.str a.Reward.Recipient.Name)])) from by
      unfold OrderRecipient.toJSON; rw [omitEmpty_two]]
    cases a.CampaignID <;> cases a.ExternalID <;> cases a.Reward.CampaignID <;>
      cases a.Reward.Products <;> rfl

theorem fundingSourceRequired_not_status :
    (∀ resp, fundingSourceRequired ≠ unexpectedStatus resp) ∧
    ¬ StartsWith fundingSourceRequired "unexpected status code" := by
  refine ⟨fun resp => ?_, by decide⟩
  have hu : unexpectedStatus resp =
      "unexpected status code " ++ (formatInt resp.StatusCode ++ ": " ++ resp.Body) := by
    apply String.ext
    simp [unexpectedStatus, String.data_append, List.append_assoc]
  have hf : fundingSourceRequired = fundingSourceRequired ++ "" := by simp
  rw [hu, hf]
  exact @append_ne_of_head _ _ _ _ 't' 'u' (by rfl) (by rfl) (by decide)

/-- C1, as amended: `Orders.Create` with an empty funding-source identifier
sends nothing and returns no order and the validation error, whose text is
not an unexpected-status error, whatever the other fields and the client
are. It hands a request to the HTTP client exactly when the identifier is not
empty, the denomination of the reward is a finite number (so that the body
can be marshalled) and `http.NewRequest` accepts the URL; it then sends that
one request, a POST to `B + "/orders"` with the client's headers. -/
theorem create_funding_source_guard (env : Env) (s : OrdersService) (args : OrderArgs) :
    (args.Payment.FundingSourceID = "" →
      (OrdersService.Create env s args).calls = [] ∧
      (OrdersService.Create env s args).result = .error fundingSourceRequired) ∧
    (∀ resp, fundingSourceRequired ≠ unexpectedStatus resp) ∧
    ¬ StartsWith fundingSourceRequired "unexpected status code" ∧
    ((OrdersService.Create env s args).calls ≠ [] ↔
      (args.Payment.FundingSourceID ≠ "" ∧
       args.Reward.Value.Denomination.isInf = false ∧
       args.Reward.Value.Denomination.isNaN = false ∧
       env.newRequestError "POST" (s.client.BaseURL ++ "/orders") = none)) ∧
    (OrdersService.Create env s args).calls.length ≤ 1 ∧
    (∀ req ∈ (OrdersService.Create env s args).calls,
      req.Method = "POST" ∧ req.URL = s.client.BaseURL ++ "/orders" ∧
      req.Header = s.client.headers) := by
  refine ⟨?_, fundingSourceRequired_not_status.1, fundingSourceRequired_not_status.2, ?_⟩
  · intro h
    rw [orders_create_eq, if_pos h]
    exact ⟨rfl, rfl⟩
  · rw [orders_create_eq]
    by_cases hfs : args.Payment.FundingSourceID = ""
    · rw [if_pos hfs]
      simp [hfs]
    · rw [if_neg hfs, orderArgs_toJSON_eq]
      by_cases hd : (args.Reward.Value.Denomination.isInf ||
          args.Reward.Value.Denomination.isNaN) = true
      · rw [if_pos hd]
        dsimp only
        have hd' : ¬ (args.Reward.Value.Denomination.isInf = false ∧
            args.Reward.Value.Denomination.isNaN = false) := by
          intro h; rw [h.1, h.2] at hd; cases hd
        simp only [ne_eq, not_true_eq_false, false_iff, List.length_nil, Nat.zero_le,
          List.not_mem_nil, false_implies, implies_true, and_true, not_and]
        intro _ h1 h2
        exact absurd ⟨h1, h2⟩ hd'
      · rw [if_neg hd]
        dsimp only
        rw [roundTrip_calls]
        have hd' : args.Reward.Value.Denomination.isInf = false ∧
            args.Reward.Value.Denomination.isNaN = false := by
          simpa using hd
        by_cases hn : env.newRequestError "POST" (s.client.BaseURL ++ "/orders") = none
        · rw [if_pos hn]
          simp [hfs, hd'.1, hd'.2, hn]
        · rw [if_neg hn]
          simp [hn]

/-- C1 fails as stated: the order of the example program with a denomination
that is NaN has a non-empty funding-source identifier, yet `Create` sends no
request. -/
theorem create_nan_sends_nothing :
    ¬ ∀ (env : Env) (s : OrdersService) (args : OrderArgs),
      ((OrdersService.Create env s args).calls ≠ [] ↔ args.Payment.FundingSourceID ≠ "") := by
  intro h
  have h1 := (h (Env.answering ⟨201, ""⟩) testClient.Orders nanOrder).2 (by decide)
  exact h1 (by decide)

/-- C1, at instances: an order without funding source sends nothing, the
order of the example program sends one request. -/
theorem create_funding_source_guard_witness :
    (OrdersService.Create (Env.answering ⟨201, ""⟩) testClient.Orders {}).calls = [] ∧
    (OrdersService.Create (Env.answering ⟨201, ""⟩) testClient.Orders exampleOrder).calls ≠ [] :=
  ⟨((create_funding_source_guard (Env.answering ⟨201, ""⟩) testClient.Orders {}).1 (by decide)).1,
   (create_funding_source_guard (Env.answering ⟨201, ""⟩) testClient.Orders exampleOrder).2.2.2.1.2
    ⟨by decide, by decide, by decide, rfl⟩⟩

/-- C8: the body of every request `Orders.Create` sends for an order with a
non-empty funding-source identifier is the text of the JSON object spelled
out here: `campaign_id` and `external_id` are always present, `null` when
the identifier is nil and the identifier string otherwise; the `omitempty`
fields `email` and `name` of the recipient are left out when empty and carry
their value otherwise, and `funding_source_id`, not empty, is present. -/
theorem create_order_body (env : Env) (s : OrdersService) (args : OrderArgs)
    (hfs : args.Payment.FundingSourceID ≠ "") (req : Request)
    (hreq : req ∈ (OrdersService.Create env s args).calls) :
    req.Body = some (JSON.text (.obj [
      ("campaign_id", match args.CampaignID with | none => .null | some id => .str id),
      ("external_id", match args.ExternalID with | none => .null | some id => .str id),
      ("payment", .obj [("funding_source_id", .str args.Payment.FundingSourceID)]),
      ("reward", .obj [
        ("campaign_id", match args.Reward.CampaignID with | none => .null | some id => .str id),
        ("delivery", .obj [("method", .str args.Reward.Delivery.Method),
          ("status", .str args.Reward.Delivery.Status),
          ("link", .str args.Reward.Delivery.Link)]),
        ("products", match args.Reward.Products with
          | none => .null
          | some l => .arr (l.map JSON.str)),
        ("recipient", .obj (
          (if args.Reward.Recipient.Email = "" then []
            else [("email", JSON.str args.Reward.Recipient.Email)]) ++
          (if args.Reward.Recipient.Name = "" then []
            else [("name", JSON.str args.Reward.Recipient.Name)]))),
        ("value", .obj [("denomination", .num (env.formatFloat args.Reward.Value.Denomination)),
          ("currency_code", .str args.Reward.Value.CurrencyCode)])])])) := by
  rw [orders_create_eq, if_neg hfs, orderArgs_toJSON_eq] at hreq
  by_cases hd : (args.Reward.Value.Denomination.isInf ||
      args.Reward.Value.Denomination.isNaN) = true
  · rw [if_pos hd] at hreq
    cases hreq
  · rw [if_neg hd] at hreq
    dsimp only at hreq
    rw [roundTrip_calls] at hreq
    split at hreq
    · simp only [List.mem_singleton] at hreq
      subst hreq
      simp only [if_neg hfs]
    · cases hreq

set_option maxRecDepth 100000 in
/-- C8, at an instance: the body sent for the order of the example program. -/
theorem create_order_body_witness :
    (OrdersService.Create (Env.answering ⟨201, ""⟩) testClient.Orders exampleOrder).calls.map
      (fun r => r.Body) =
      [some ("\x7b\"campaign_id\":null,\"external_id\":null," ++
        "\"payment\":\x7b\"funding_source_id\":\"BALANCE\"\x7d," ++
        "\"reward\":\x7b\"campaign_id\":\"C1\"," ++
        "\"delivery\":\x7b\"method\":\"LINK\",\"status\":\"\",\"link\":\"\"\x7d," ++
        "\"products\":null," ++
        "\"recipient\":\x7b\"email\":\"testy@example.com\",\"name\":\"Testy McTesterson\"\x7d," ++
        "\"value\":\x7b\"denomination\":1,\"currency_code\":\"USD\"\x7d\x7d\x7d")] ∧
    (∀ req ∈ (OrdersService.Create (Env.answering ⟨201, ""⟩) testClient.Orders exampleOrder).calls,
      req.Body = some (JSON.text (.obj [("campaign_id", .null), ("external_id", .null),
        ("payment", .obj [("funding_source_id", .str "BALANCE")]),
        ("reward", .obj [("campaign_id", .str "C1"),
          ("delivery", .obj [("method", .str "LINK"), ("status", .str ""), ("link", .str "")]),
          ("products", .null),
          ("recipient", .obj [("email", .str "testy@example.com"),
            ("name", .str "Testy McTesterson")]),
          ("value", .obj [("denomination", .num "1"), ("currency_code", .str "USD")])])]))) :=
  ⟨by decide, fun req hreq =>
    create_order_body (Env.answering ⟨201, ""⟩) testClient.Orders exampleOrder (by decide) req hreq⟩


/-! ### The scanner reads back what the encoder writes -/

theorem run_cons (cfg : Config) (c : Char) (cs : List Char) :
    Config.run cfg (c :: cs) =
      match cfg.feed c with
      | .next cfg1 => Config.run cfg1 cs
      | .finished v => some (v, cs)
      | .finishedBefore v => some (v, c :: cs)
      | .invalid => none := by
  rw [Config.run]

theorem run_next {cfg cfg1 : Config} {c : Char} (cs : List Char)
    (h : cfg.feed c = .next cfg1) : Config.run cfg (c :: cs) = Config.run cfg1 cs := by
  rw [run_cons, h]

theorem campaign_toJSON_eq (c : Campaign) :
    c.toJSON = JSON.obj (stringMembers (campaignMembers c)) := rfl

/-- The bound of `unquoteAux` never cuts the work short: every bound from the
length of the text on gives the same result. -/
theorem unquoteAux_bound (n m : Nat) (raw : List Char) (hn : raw.length ≤ n)
    (hm : raw.length ≤ m) : unquoteAux n raw = unquoteAux m raw := by
  induction n generalizing m raw with
  | zero =>
    have : raw = [] := List.length_eq_zero.mp (Nat.le_zero.mp hn)
    subst this
    cases m <;> rfl
  | succ n ih =>
    cases raw with
    | nil => cases m <;> rfl
    | cons ch rest =>
      cases m with
      | zero => simp at hm
      | succ m =>
        have hn1 : rest.length ≤ n := by simpa using hn
        have hm1 : rest.length ≤ m := by simpa using hm
        simp only [unquoteAux]
        split
        · cases rest with
          | nil => rfl
          | cons e rest1 =>
            have hn2 : rest1.length ≤ n := by simp at hn1; omega
            have hm2 : rest1.length ≤ m := by simp at hm1; omega
            dsimp only
            split
            · rcases rest1 with _ | ⟨a, _ | ⟨b, _ | ⟨c, _ | ⟨d, rest2⟩⟩⟩⟩ <;> try rfl
              have hn3 : rest2.length ≤ n := by simp at hn2; omega
              have hm3 : rest2.length ≤ m := by simp at hm2; omega
              dsimp only
              cases getu4 a b c d with
              | none => rfl
              | some rr =>
                dsimp only
                rw [ih m rest2 hn3 hm3,
                  ih m (rest2.drop 6) (by rw [List.length_drop]; omega)
                    (by rw [List.length_drop]; omega)]
            · rw [ih m rest1 hn2 hm2]
        · rw [ih m rest hn1 hm1]

theorem atEnd_isNum (cfg : Config) (v : JSON) (h : cfg.atEnd = some v) : v.isNum = true := by
  unfold Config.atEnd at h
  split at h
  · split at h
    · cases h; rfl
    · cases h
  · cases h

/-- What follows the first value of the input is not looked at: the scanner
yields the same value whatever is appended, unless the value is a number
that ran to the very end of the input. -/
theorem run_append (cfg : Config) (xs ys : List Char) (v : JSON) (rest : List Char)
    (h : Config.run cfg xs = some (v, rest)) (hv : rest ≠ [] ∨ v.isNum = false) :
    Config.run cfg (xs ++ ys) = some (v, rest ++ ys) := by
  induction xs generalizing cfg with
  | nil =>
    rw [Config.run] at h
    cases ha : cfg.atEnd with
    | none => rw [ha] at h; cases h
    | some w =>
      rw [ha] at h
      simp only [Option.map_some', Option.some.injEq, Prod.mk.injEq] at h
      obtain ⟨h1, h2⟩ := h
      subst h1 h2
      rcases hv with hv | hv
      · exact absurd rfl hv
      · rw [atEnd_isNum cfg w ha] at hv; cases hv
  | cons c xs ih =>
    rw [run_cons] at h
    rw [List.cons_append, run_cons]
    cases hf : cfg.feed c with
    | next cfg1 =>
      rw [hf] at h
      exact ih cfg1 h
    | finished w =>
      rw [hf] at h
      simp only [Option.some.injEq, Prod.mk.injEq] at h
      obtain ⟨h1, h2⟩ := h
      subst h1 h2
      rfl
    | finishedBefore w =>
      rw [hf] at h
      simp only [Option.some.injEq, Prod.mk.injEq] at h
      obtain ⟨h1, h2⟩ := h
      subst h1 h2
      rfl
    | invalid => rw [hf] at h; cases h

/-- White space before the first value is skipped. -/
theorem run_leading_space (ws xs : List Char) (h : ws.all isSpaceJSON = true) :
    Config.run ⟨.beginValue, []⟩ (ws ++ xs) = Config.run ⟨.beginValue, []⟩ xs := by
  induction ws with
  | nil => rfl
  | cons c ws ih =>
    simp only [List.all_cons, Bool.and_eq_true] at h
    have hf : Config.feed ⟨.beginValue, []⟩ c = .next ⟨.beginValue, []⟩ := by
      simp [Config.feed, stepBeginValue, h.1]
    rw [List.cons_append, run_next _ hf]
    exact ih h.2

theorem readValue_append (body extra : String) (v : JSON) (rest : List Char)
    (h : readValue body = some (v, rest)) (hv : rest ≠ [] ∨ v.isNum = false) :
    readValue (body ++ extra) = some (v, rest ++ extra.data) := by
  unfold readValue at h ⊢
  rw [String.data_append]
  exact run_append _ _ _ _ _ h hv

theorem readValue_leading_space (ws body : String) (h : ws.data.all isSpaceJSON = true) :
    readValue (ws ++ body) = readValue body := by
  unfold readValue
  rw [String.data_append]
  exact run_leading_space _ _ h

/-- A successful decoding of a list of campaigns is not changed by anything
appended to the body. -/
theorem decode_listCampaigns_append (env : Env) (body extra : String)
    (v : listCampaignsResponse)
    (h : Decode env "listCampaignsResponse" (fun j _ => listCampaignsResponse.unmarshal {} j)
      body = .ok v) :
    Decode env "listCampaignsResponse" (fun j _ => listCampaignsResponse.unmarshal {} j)
      (body ++ extra) = .ok v := by
  unfold Decode at h ⊢
  cases hr : readValue body with
  | none => rw [hr] at h; cases h
  | some p =>
    obtain ⟨j, rest⟩ := p
    rw [hr] at h
    dsimp only at h
    have hj : j.isNum = false := by
      cases j <;> first | rfl | (simp [listCampaignsResponse.unmarshal] at h)
    rw [readValue_append body extra j rest hr (Or.inr hj)]
    dsimp only
    cases hu : listCampaignsResponse.unmarshal {} j with
    | none => rw [hu] at h; cases h
    | some w => rw [hu] at h; exact h

/-- A body that repeats the `campaigns` key is bound as `encoding/json` binds
it: the second array cuts the slice to one record, and the third writes its
second element over the record the first array left in the backing array. -/
theorem repeated_key_reuses_backing :
    (listCampaignsResponse.unmarshal {} (.obj [
      ("campaigns", .arr [.obj [("id", .str "a")], .obj [("id", .str "b")]]),
      ("campaigns", .arr [.obj [("id", .str "c")]]),
      ("campaigns", .arr [.obj [], .obj [("name", .str "m")]])])) =
      some { Campaigns := [{ ID := "c" }, { ID := "b", Name := "m" }] } := by
  decide

/-! ### C10 -/

theorem onAccepted_intro {α β : Type} (env : Env) (result : Except String β)
    (context target : String) (unmarshal : JSON → String → Option α) (pick : α → β)
    (body : String)
    (h : result = decoded context (Decode env target unmarshal body) pick)
    (hf : context.data.head? = some 'f') (hsw : StartsWith context "failed to decode") :
    OnAccepted env result context target unmarshal pick body := by
  refine ⟨h, ?_, ?_, ?_, hsw⟩
  · intro r
    rw [h]
    exact decoded_ne_unexpectedStatus context _ pick r hf
  · intro v hv
    rw [h] at hv
    unfold Decode at hv
    cases hr : readValue body with
    | none => rw [hr] at hv; cases hv
    | some p =>
      obtain ⟨j, rest⟩ := p
      rw [hr] at hv
      dsimp only at hv
      cases hu : unmarshal j (valueText body rest) with
      | none => rw [hu] at hv; cases hv
      | some a =>
        rw [hu] at hv
        simp only [decoded, Except.ok.injEq] at hv
        exact ⟨j, rest, a, rfl, hu, hv.symm⟩
  · intro hnone
    rw [h]
    unfold Decode
    cases hr : readValue body with
    | none => rfl
    | some p =>
      obtain ⟨j, rest⟩ := p
      dsimp only
      rw [hnone j rest hr]
      rfl

/-- C9, as amended: when `http.NewRequest` accepts the URL of an operation and
the network answers its request with an accepted status (200, or 201 for the
two `Create` operations), the operation never returns the unexpected-status
error. Its result is decided by the first JSON value of the body, white space
before it skipped and anything after it left unread: when no such value can
be read, or the value does not bind to the envelope of the operation, the
operation returns no result and the error "failed to decode ...: " followed by
the decoder's error; it returns a value only when a leading value was read
and bound, and then the bound one. What is appended to a body does not change
the value read from it (unless that value is a number running to the end of
the body), so a list of campaigns decoded from a body is decoded from every
extension of it. -/
theorem accepted_status_decodes (env : Env) (resp : Response) :
    (resp.StatusCode = 200 →
      (∀ (cs : CampaignsService),
        env.Answers ⟨"GET", cs.client.BaseURL ++ "/campaigns", cs.client.headers, none⟩ resp →
        OnAccepted env (CampaignsService.List env cs).result
          "failed to decode campaigns list: " "listCampaignsResponse"
          (fun j _ => listCampaignsResponse.unmarshal {} j) (fun a => a.Campaigns) resp.Body) ∧
      (∀ (cs : CampaignsService) (id : String),
        env.Answers ⟨"GET", cs.client.BaseURL ++ "/campaigns/" ++ TrimSpace id, cs.client.headers, none⟩ resp →
        OnAccepted env (CampaignsService.Retrieve env cs id).result
          "failed to decode single campaign: " "singleCampaignResponse"
          (fun j _ => singleCampaignResponse.unmarshal {} j) (fun a => a.Campaign) resp.Body) ∧
      (∀ (s : OrdersService),
        env.Answers ⟨"GET", s.client.BaseURL ++ "/orders", s.client.headers, none⟩ resp →
        OnAccepted env (OrdersService.List env s).result
          "failed to decode orders list: " "listOrdersResponse"
          (fun _ text => env.unmarshalListOrders text) (fun a => a.Orders) resp.Body) ∧
      (∀ (s : OrdersService) (id : String),
        env.Answers ⟨"GET", s.client.BaseURL ++ "/orders/" ++ TrimSpace id, s.client.headers, none⟩ resp →
        OnAccepted env (OrdersService.Retrieve env s id).result
          "failed to decode single order: " "singleOrderResponse"
          (fun _ text => env.unmarshalSingleOrder text) (fun a => a.Order) resp.Body) ∧
      (∀ (ps : ProductsService) (opts : Option ListProductsOptions),
        env.Answers ⟨"GET", ps.listURL opts, ps.client.headers, none⟩ resp →
        OnAccepted env (ProductsService.List env ps opts).result
          "failed to decode products list: " "listProductsResponse"
          (fun _ text => env.unmarshalListProducts text) (fun a => a.Products) resp.Body) ∧
      (∀ (ps : ProductsService) (id : String),
        env.Answers ⟨"GET", ps.client.BaseURL ++ "/products/" ++ TrimSpace id, ps.client.headers, none⟩ resp →
        OnAccepted env (ProductsService.Retrieve env ps id).result
          "failed to decode single product: " "singleProductResponse"
          (fun _ text => env.unmarshalSingleProduct text) (fun a => a.Product) resp.Body)) ∧
    (resp.StatusCode = 200 ∨ resp.StatusCode = 201 →
      (∀ (s : OrdersService) (args : OrderArgs) (j : JSON),
        args.Payment.FundingSourceID ≠ "" → args.toJSON env.formatFloat = .ok j →
        env.Answers ⟨"POST", s.client.BaseURL ++ "/orders", s.client.headers,
          some j.text⟩ resp →
        OnAccepted env (OrdersService.Create env s args).result
          "failed to decode create order response: " "singleOrderResponse"
          (fun _ text => env.unmarshalSingleOrder text) (fun a => a.Order) resp.Body) ∧
      (∀ (ps : ProductsService) (args : CreateProductArgs) (j : JSON),
        args.toJSON env.formatFloat = .ok j →
        env.Answers ⟨"POST", ps.client.BaseURL ++ "/products", ps.client.headers,
          some j.text⟩ resp →
        OnAccepted env (ProductsService.Create env ps args).result
          "failed to decode create product response: " "singleProductResponse"
          (fun _ text => env.unmarshalSingleProduct text) (fun a => a.Product) resp.Body)) ∧
    (∀ (body extra : String) (v : JSON) (rest : List Char), readValue body = some (v, rest) →
      (rest ≠ [] ∨ v.isNum = false) →
      readValue (body ++ extra) = some (v, rest ++ extra.data)) ∧
    (∀ ws body : String, ws.data.all isSpaceJSON = true →
      readValue (ws ++ body) = readValue body) ∧
    (∀ (body extra : String) (v : listCampaignsResponse),
      Decode env "listCampaignsResponse" (fun j _ => listCampaignsResponse.unmarshal {} j)
        body = .ok v →
      Decode env "listCampaignsResponse" (fun j _ => listCampaignsResponse.unmarshal {} j)
        (body ++ extra) = .ok v) := by
  refine ⟨?_, ?_, readValue_append, readValue_leading_space, decode_listCampaigns_append env⟩
  · intro hs
    have hb : ((resp.StatusCode == 200) = true) = True := by simp [hs]
    refine ⟨?_, ?_, ?_, ?_, ?_, ?_⟩
    · intro cs h
      refine onAccepted_intro _ _ _ _ _ _ _ ?_ (by rfl) (by decide)
      rw [campaigns_list_eq]
      have := (roundTrip_answers env _ _ _ _ [] (fun s => s == 200)
        "failed to decode campaigns list: "
        (Decode env "listCampaignsResponse" (fun j _ => listCampaignsResponse.unmarshal {} j))
        (fun a => a.Campaigns) resp h).2
      simpa only [hb, if_true] using this
    · intro cs id h
      refine onAccepted_intro _ _ _ _ _ _ _ ?_ (by rfl) (by decide)
      rw [campaigns_retrieve_eq]
      have := (roundTrip_answers env _ _ _ _ [] (fun s => s == 200)
        "failed to decode single campaign: "
        (Decode env "singleCampaignResponse" (fun j _ => singleCampaignResponse.unmarshal {} j))
        (fun a => a.Campaign) resp h).2
      simpa only [hb, if_true] using this
    · intro s h
      refine onAccepted_intro _ _ _ _ _ _ _ ?_ (by rfl) (by decide)
      rw [orders_list_eq]
      have := (roundTrip_answers env _ _ _ _ [] (fun c => c == 200)
        "failed to decode orders list: "
        (Decode env "listOrdersResponse" (fun _ text => env.unmarshalListOrders text))
        (fun a => a.Orders) resp h).2
      simpa only [hb, if_true] using this
    · intro s id h
      refine onAccepted_intro _ _ _ _ _ _ _ ?_ (by rfl) (by decide)
      rw [orders_retrieve_eq]
      have := (roundTrip_answers env _ _ _ _ [] (fun c => c == 200)
        "failed to decode single order: "
        (Decode env "singleOrderResponse" (fun _ text => env.unmarshalSingleOrder text))
        (fun a => a.Order) resp h).2
      simpa only [hb, if_true] using this
    · intro ps opts h
      refine onAccepted_intro _ _ _ _ _ _ _ ?_ (by rfl) (by decide)
      rw [products_list_eq]
      have := (roundTrip_answers env _ _ _ _ [] (fun c => c == 200)
        "failed to decode products list: "
        (Decode env "listProductsResponse" (fun _ text => env.unmarshalListProducts text))
        (fun a => a.Products) resp h).2
      simpa only [hb, if_true] using this
    · intro ps id h
      refine onAccepted_intro _ _ _ _ _ _ _ ?_ (by rfl) (by decide)
      rw [products_retrieve_eq]
      have := (roundTrip_answers env _ _ _ _ [] (fun c => c == 200)
        "failed to decode single product: "
        (Decode env "singleProductResponse" (fun _ text => env.unmarshalSingleProduct text))
        (fun a => a.Product) resp h).2
      simpa only [hb, if_true] using this
  · intro hs
    have hb : ((resp.StatusCode == 201 || resp.StatusCode == 200) = true) = True := by
      rcases hs with h | h <;> simp [h]
    constructor
    · intro s args j hfs hj h
      refine onAccepted_intro _ _ _ _ _ _ _ ?_ (by rfl) (by decide)
      rw [orders_create_eq, if_neg hfs, hj]
      dsimp only
      have := (roundTrip_answers env _ _ _ _ ["Request " ++ j.text]
        (fun c => c == 201 || c == 200) "failed to decode create order response: "
        (Decode env "singleOrderResponse" (fun _ text => env.unmarshalSingleOrder text))
        (fun a => a.Order) resp h).2
      simpa only [hb, if_true] using this
    · intro ps args j hj h
      refine onAccepted_intro _ _ _ _ _ _ _ ?_ (by rfl) (by decide)
      rw [products_create_eq, hj]
      dsimp only
      have := (roundTrip_answers env _ _ _ _ []
        (fun c => c == 201 || c == 200) "failed to decode create product response: "
        (Decode env "singleProductResponse" (fun _ text => env.unmarshalSingleProduct text))
        (fun a => a.Product) resp h).2
      simpa only [hb, if_true] using this

/-- C9 fails as stated: the body `{"campaigns":[]}]` is not valid JSON, yet
`Campaigns.List` answered with it and status 200 returns the empty list and
no error. -/
theorem decode_accepts_trailing_input :
    ¬ ∀ (env : Env) (cs : CampaignsService) (resp : Response),
      resp.StatusCode = 200 → Answered env (CampaignsService.List env cs) resp →
      validJSON resp.Body = false → ∃ e, (CampaignsService.List env cs).result = .error e := by
  intro h
  obtain ⟨e, he⟩ := h (Env.answering ⟨200, "\x7b\"campaigns\":[]\x7d]"⟩) testClient.Campaigns
    ⟨200, "\x7b\"campaigns\":[]\x7d]"⟩ rfl ⟨_, rfl, rfl⟩ (by decide)
  have hok : (CampaignsService.List (Env.answering ⟨200, "\x7b\"campaigns\":[]\x7d]"⟩)
      testClient.Campaigns).result = .ok [] := by rfl
  rw [hok] at he
  cases he

/-- C9, at instances: each of the eight operations on the testflight client,
answered with an accepted status and the body "<html>", which is no JSON,
fails with its own decode error. -/
theorem accepted_status_decodes_witness :
    (CampaignsService.List (Env.answering ⟨200, "<html>"⟩) testClient.Campaigns).result =
      .error "failed to decode campaigns list: invalid" ∧
    (CampaignsService.Retrieve (Env.answering ⟨200, "<html>"⟩) testClient.Campaigns
      "C1").result = .error "failed to decode single campaign: invalid" ∧
    (OrdersService.List (Env.answering ⟨200, "<html>"⟩) testClient.Orders).result =
      .error "failed to decode orders list: invalid" ∧
    (OrdersService.Retrieve (Env.answering ⟨200, "<html>"⟩) testClient.Orders "X").result =
      .error "failed to decode single order: invalid" ∧
    (ProductsService.List (Env.answering ⟨200, "<html>"⟩) testClient.Products none).result =
      .error "failed to decode products list: invalid" ∧
    (ProductsService.Retrieve (Env.answering ⟨200, "<html>"⟩) testClient.Products
      "P1").result = .error "failed to decode single product: invalid" ∧
    (OrdersService.Create (Env.answering ⟨201, "<html>"⟩) testClient.Orders
      exampleOrder).result = .error "failed to decode create order response: invalid" ∧
    (ProductsService.Create (Env.answering ⟨201, "<html>"⟩) testClient.Products
      exampleProduct).result = .error "failed to decode create product response: invalid" :=
  have hr : readValue "<html>" = none := by rfl
  have hno : ∀ {p : JSON × List Char}, readValue "<html>" = some p → False :=
    fun h => by rw [hr] at h; cases h
  have h200 := (accepted_status_decodes (Env.answering ⟨200, "<html>"⟩) ⟨200, "<html>"⟩).1 rfl
  have h201 := (accepted_status_decodes (Env.answering ⟨201, "<html>"⟩) ⟨201, "<html>"⟩).2.1
    (Or.inr rfl)
  ⟨(h200.1 testClient.Campaigns ⟨rfl, rfl⟩).2.2.2.1 (fun _ _ h => (hno h).elim),
   (h200.2.1 testClient.Campaigns "C1" ⟨rfl, rfl⟩).2.2.2.1 (fun _ _ h => (hno h).elim),
   (h200.2.2.1 testClient.Orders ⟨rfl, rfl⟩).2.2.2.1 (fun _ _ h => (hno h).elim),
   (h200.2.2.2.1 testClient.Orders "X" ⟨rfl, rfl⟩).2.2.2.1 (fun _ _ h => (hno h).elim),
   (h200.2.2.2.2.1 testClient.Products none ⟨rfl, rfl⟩).2.2.2.1 (fun _ _ h => (hno h).elim),
   (h200.2.2.2.2.2 testClient.Products "P1" ⟨rfl, rfl⟩).2.2.2.1 (fun _ _ h => (hno h).elim),
   (h201.1 testClient.Orders exampleOrder _ (by decide) rfl ⟨rfl, rfl⟩).2.2.2.1 (fun _ _ h => (hno h).elim),
   (h201.2 testClient.Products exampleProduct _ rfl ⟨rfl, rfl⟩).2.2.2.1 (fun _ _ h => (hno h).elim)⟩

end Tremendous
